import Mathlib

/-!
# aws-lambda-nodejs-runtime-interface-client: error pipeline, handler resolution, runtime client

A shallow embedding of `lib/Errors/index.js`, `lib/utils/UserFunction.js` and
`lib/RuntimeClient/RuntimeClient.js`.

JavaScript values are modelled by the inductive type `JSVal`.  The model covers
primitives, plain objects, native error objects, arrays and functions:

* numbers are the integer-valued ones, printed in decimal (as JavaScript prints the
  integers it represents exactly, below 10^21); strings are sequences of
  characters (no unpaired surrogates), and the `length` and the indices of a string count
  characters;
* a user-supplied function is modelled by what a call of it does: it returns a fixed
  value or throws a fixed value;
* a property is a data property or an accessor whose getter returns or throws a fixed
  value; the property list of an object is in enumeration order, and assignment of a
  new key appends it (keys that are array indices, which JavaScript enumerates first,
  are not treated apart);
* values are trees, so an object cannot contain itself;
* inherited members are modelled for the methods that the embedded code calls
  (`toString`, `valueOf`, `split`) and for the `name` and `message` of `Error.prototype`;
  other inherited members (`constructor`, `hasOwnProperty`, ...) read as `undefined`.

Code that can throw returns `Except JSVal α`: `.error v` is `throw v`.  The file system
and the module loader are a parameter of the embedding (`Host`); a POST of the runtime
client is the request record handed to the HTTP client.
-/

namespace RIC

/-- Classes of objects: plain objects and the native error classes that the code tells apart. -/
inductive ObjClass
  | plain
  | error
  | synErr
  | typeErr
  | rangeErr
  deriving DecidableEq, Repr

/-- Built-in functions that are reachable as inherited members. -/
inductive Builtin
  | objectToString
  | objectValueOf
  | errorToString
  | arrayToString
  | functionToString
  | stringToString
  | numberToString
  | booleanToString
  | bigintToString
  | stringSplit
  deriving DecidableEq, Repr

mutual
/-- JavaScript values. -/
inductive JSVal
  | undefined
  | null
  | bool (b : Bool)
  | num (n : Int)
  | bigint (n : Int)
  | str (s : String)
  | fn (src : String) (throws : Bool) (result : JSVal) (props : List (String × JSProp))
  | builtin (b : Builtin)
  | obj (cls : ObjClass) (props : List (String × JSProp))
  | arr (items : List JSVal)
/-- Own properties: a data property, or an accessor whose getter returns or throws `result`. -/
inductive JSProp
  | data (enumerable : Bool) (value : JSVal)
  | getter (enumerable : Bool) (throws : Bool) (result : JSVal)
end

instance : Inhabited JSVal := ⟨JSVal.undefined⟩

/-- The name a native error class gives to its instances through the prototype. -/
def ObjClass.className : ObjClass → String
  | .plain => "Object"
  | .error => "Error"
  | .synErr => "SyntaxError"
  | .typeErr => "TypeError"
  | .rangeErr => "RangeError"

/-- A freshly constructed native error of class `cls` with message `msg`. -/
def mkError (cls : ObjClass) (msg : String) : JSVal :=
  .obj cls [("stack", .data false (.str (cls.className ++ ": " ++ msg ++ "\n    at <anonymous>"))),
            ("message", .data false (.str msg))]

/-- JavaScript `typeof`. -/
def typeOf : JSVal → String
  | .undefined => "undefined"
  | .null => "object"
  | .bool _ => "boolean"
  | .num _ => "number"
  | .bigint _ => "bigint"
  | .str _ => "string"
  | .fn _ _ _ _ => "function"
  | .builtin _ => "function"
  | .obj _ _ => "object"
  | .arr _ => "object"

/-- JavaScript `ToBoolean`. -/
def truthy : JSVal → Bool
  | .undefined => false
  | .null => false
  | .bool b => b
  | .num n => n != 0
  | .bigint n => n != 0
  | .str s => s != ""
  | _ => true

/-- Whether a value is callable. -/
def isCallable : JSVal → Bool
  | .fn _ _ _ _ => true
  | .builtin _ => true
  | _ => false

/-- Whether a value is an Object in the sense of the language (not a primitive). -/
def isObject : JSVal → Bool
  | .fn _ _ _ _ => true
  | .builtin _ => true
  | .obj _ _ => true
  | .arr _ => true
  | _ => false

/-- Node `util.types.isNativeError`. -/
def isNativeError : JSVal → Bool
  | .obj cls _ => cls != .plain
  | _ => false

/-- The test `v instanceof Error`. -/
def instanceOfError : JSVal → Bool
  | .obj cls _ => cls != .plain
  | _ => false

/-- The test `v instanceof SyntaxError`. -/
def instanceOfSyntaxError : JSVal → Bool
  | .obj cls _ => cls == .synErr
  | _ => false

/-- Look an own property up by key (the first entry wins). -/
def lookupProp (k : String) : List (String × JSProp) → Option JSProp
  | [] => none
  | (key, p) :: rest => if key = k then some p else lookupProp k rest

/-- Read a property: a data property yields its value, a getter runs. -/
def readProp : JSProp → Except JSVal JSVal
  | .data _ v => .ok v
  | .getter _ throws r => if throws then .error r else .ok r

/-- Members inherited from `Object.prototype`. -/
def objectProto (k : String) : JSVal :=
  if k = "toString" then .builtin .objectToString
  else if k = "valueOf" then .builtin .objectValueOf
  else .undefined

/-- Members inherited by an object of class `cls`. -/
def classProto (cls : ObjClass) (k : String) : JSVal :=
  match cls with
  | .plain => objectProto k
  | _ =>
    if k = "name" then .str cls.className
    else if k = "message" then .str ""
    else if k = "toString" then .builtin .errorToString
    else objectProto k

/-- Value of a string of decimal digits, continuing from `acc`. -/
def digitsToNat : List Char → Nat → Option Nat
  | [], acc => some acc
  | c :: cs, acc => if c.isDigit then digitsToNat cs (acc * 10 + (c.toNat - 48)) else none

/-- The index denoted by a property key, when the key is a canonical array index
(decimal digits without a leading zero). -/
def indexOfKey (k : String) : Option Nat :=
  match k.data with
  | [] => none
  | [c] => digitsToNat [c] 0
  | c :: cs => if c = '0' then none else digitsToNat (c :: cs) 0

/-- Property read `v[k]`; reading a property of `undefined` or `null` throws a TypeError. -/
def getProp (v : JSVal) (k : String) : Except JSVal JSVal :=
  match v with
  | .undefined => .error (mkError .typeErr ("Cannot read property " ++ k ++ " of undefined"))
  | .null => .error (mkError .typeErr ("Cannot read property " ++ k ++ " of null"))
  | .bool _ => .ok (if k = "toString" then .builtin .booleanToString else .undefined)
  | .num _ => .ok (if k = "toString" then .builtin .numberToString else .undefined)
  | .bigint _ => .ok (if k = "toString" then .builtin .bigintToString else .undefined)
  | .str s =>
    if k = "length" then .ok (.num s.length)
    else match indexOfKey k with
      | some i => .ok (match s.data.get? i with
          | some c => .str (String.mk [c])
          | none => .undefined)
      | none =>
        if k = "toString" then .ok (.builtin .stringToString)
        else if k = "split" then .ok (.builtin .stringSplit)
        else .ok .undefined
  | .fn _ _ _ props =>
    match lookupProp k props with
    | some p => readProp p
    | none => .ok (if k = "toString" then .builtin .functionToString else objectProto k)
  | .builtin _ => .ok (if k = "toString" then .builtin .functionToString else objectProto k)
  | .obj cls props =>
    match lookupProp k props with
    | some p => readProp p
    | none => .ok (classProto cls k)
  | .arr items =>
    if k = "length" then .ok (.num items.length)
    else match indexOfKey k with
      | some i => .ok (items.getD i .undefined)
      | none => .ok (if k = "toString" then .builtin .arrayToString else objectProto k)

/-! ## Strings -/

/-- Split at every occurrence of the non-empty separator `sep`, scanning left to right.
`skip` counts the characters of a matched separator still to be passed over and
`cur` holds the characters of the current piece, latest first. -/
def splitAux (sep : List Char) : List Char → Nat → List Char → List (List Char)
  | [], _, cur => [cur.reverse]
  | _ :: cs, skip + 1, cur => splitAux sep cs skip cur
  | c :: cs, 0, cur =>
    if sep.isPrefixOf (c :: cs) then cur.reverse :: splitAux sep cs (sep.length - 1) []
    else splitAux sep cs 0 (c :: cur)

/-- The method `String.prototype.split(sep)` without a limit: an empty separator
splits into single characters. -/
def jsSplit (s sep : String) : List String :=
  if sep.data = [] then s.data.map (fun c => String.mk [c])
  else (splitAux sep.data s.data 0 []).map String.mk

/-- The method `String.prototype.includes(pat)`. -/
def includes (s pat : String) : Bool :=
  s.data.tails.any (fun t => pat.data.isPrefixOf t)

/-- First index at which `pat` occurs in `s`, scanning from index `i`. -/
def indexOfAux (pat : List Char) : List Char → Nat → Option Nat
  | [], i => if pat = [] then some i else none
  | c :: cs, i => if pat.isPrefixOf (c :: cs) then some i else indexOfAux pat cs (i + 1)

/-- The method `String.prototype.indexOf(pat)`: `none` stands for the result `-1`. -/
def indexOf (s pat : String) : Option Nat :=
  indexOfAux pat.data s.data 0

/-- The call `s.substring(0, e)` where `e` is a result of `indexOf`: a negative end is
taken as 0. -/
def substring0 (s : String) (e : Option Nat) : String :=
  String.mk (s.data.take (e.getD 0))

example : jsSplit "a\nb\n" "\n" = ["a", "b", ""] := by decide
example : jsSplit "" "\n" = [""] := by decide
example : jsSplit "a--b-c" "--" = ["a", "b-c"] := by decide
example : includes "a/../b" ".." = true := by decide
example : includes "a/./b" ".." = false := by decide
example : indexOf "a.b/a.b" "a.b" = some 0 := by decide
example : indexOf "x/a.b" "a.b" = some 2 := by decide

/-! ## Calls and string conversion

Calls nest, so the functions below count the remaining call depth: at depth 0 a
call throws the RangeError of an exhausted stack. -/

/-- The call depth available to the embedded code. -/
def stackLimit : Nat := 10000

/-- The RangeError of an exhausted call stack. -/
def stackOverflow : JSVal := mkError .rangeErr "Maximum call stack size exceeded"

/-- String form of a primitive value (`ToString`); `none` for objects. -/
def primToString : JSVal → Option String
  | .undefined => some "undefined"
  | .null => some "null"
  | .bool b => some (if b then "true" else "false")
  | .num n => some (toString n)
  | .bigint n => some (toString n)
  | .str s => some s
  | _ => none

/-- The result of `Object.prototype.toString` on a value. -/
def classTag : JSVal → String
  | .undefined => "[object Undefined]"
  | .null => "[object Null]"
  | .bool _ => "[object Boolean]"
  | .num _ => "[object Number]"
  | .bigint _ => "[object BigInt]"
  | .str _ => "[object String]"
  | .fn _ _ _ _ => "[object Function]"
  | .builtin _ => "[object Function]"
  | .obj .plain _ => "[object Object]"
  | .obj _ _ => "[object Error]"
  | .arr _ => "[object Array]"

/-- Whether a value is `undefined` or `null`. -/
def isNullish : JSVal → Bool
  | .undefined => true
  | .null => true
  | _ => false

/-- The strings joined with `sep` between them. -/
def joinWith (sep : String) : List String → String
  | [] => ""
  | [a] => a
  | a :: b :: rest => a ++ sep ++ joinWith sep (b :: rest)

/-- The text `name: msg` that `Error.prototype.toString` builds. -/
def errorText (name msg : String) : String :=
  if name = "" then msg else if msg = "" then name else name ++ ": " ++ msg

mutual
/-- The call `f.call(this, ...args)` at the given remaining call depth. -/
def callFn : Nat → JSVal → JSVal → List JSVal → Except JSVal JSVal
  | 0, _, _, _ => .error stackOverflow
  | fuel + 1, f, this, args =>
    match f with
    | .fn _ throws r _ => if throws then .error r else .ok r
    | .builtin .objectToString => .ok (.str (classTag this))
    | .builtin .objectValueOf =>
      if isNullish this then .error (mkError .typeErr "Cannot convert undefined or null to object")
      else .ok this
    | .builtin .errorToString =>
      if !isObject this then
        .error (mkError .typeErr "Error.prototype.toString requires that this be an Object")
      else do
        let name ← getProp this "name"
        let nameS ← (match name with
          | .undefined => .ok "Error"
          | _ => toStringOp fuel name)
        let msg ← getProp this "message"
        let msgS ← (match msg with
          | .undefined => .ok ""
          | _ => toStringOp fuel msg)
        .ok (.str (errorText nameS msgS))
    | .builtin .arrayToString =>
      match this with
      | .arr items => do
        let parts ← items.mapM (fun x => if isNullish x then .ok "" else toStringOp fuel x)
        .ok (.str (joinWith "," parts))
      | _ =>
        if isNullish this then
          .error (mkError .typeErr "Cannot convert undefined or null to object")
        else do
          let j ← getProp this "join"
          if isCallable j then callFn fuel j this [] else .ok (.str (classTag this))
    | .builtin .functionToString =>
      match this with
      | .fn src _ _ _ => .ok (.str src)
      | .builtin _ => .ok (.str "function () \x7b [native code] \x7d")
      | _ => .error (mkError .typeErr "Function.prototype.toString requires that this be a Function")
    | .builtin .stringToString =>
      match this with
      | .str s => .ok (.str s)
      | _ => .error (mkError .typeErr "String.prototype.toString requires that this be a String")
    | .builtin .numberToString =>
      match this with
      | .num n => .ok (.str (toString n))
      | _ => .error (mkError .typeErr "Number.prototype.toString requires that this be a Number")
    | .builtin .booleanToString =>
      match this with
      | .bool b => .ok (.str (if b then "true" else "false"))
      | _ => .error (mkError .typeErr "Boolean.prototype.toString requires that this be a Boolean")
    | .builtin .bigintToString =>
      match this with
      | .bigint n => .ok (.str (toString n))
      | _ => .error (mkError .typeErr "BigInt.prototype.toString requires that this be a BigInt")
    | .builtin .stringSplit =>
      if isNullish this then
        .error (mkError .typeErr "String.prototype.split called on null or undefined")
      else do
        let s ← toStringOp fuel this
        match args.headD .undefined with
        | .undefined => .ok (.arr [.str s])
        | sep => do
          let r ← toStringOp fuel sep
          .ok (.arr ((jsSplit s r).map JSVal.str))
    | _ => .error (mkError .typeErr "not a function")
/-- The abstract operation `ToString`: objects are first converted by their
`toString` method, then by `valueOf` (`OrdinaryToPrimitive` with hint string). -/
def toStringOp : Nat → JSVal → Except JSVal String
  | 0, _ => .error stackOverflow
  | fuel + 1, v =>
    match primToString v with
    | some s => .ok s
    | none => do
      let m ← getProp v "toString"
      let r ← (if isCallable m then callFn fuel m v [] else .ok v)
      match primToString r with
      | some s => .ok s
      | none => do
        let m2 ← getProp v "valueOf"
        let r2 ← (if isCallable m2 then callFn fuel m2 v [] else .ok v)
        match primToString r2 with
        | some s => .ok s
        | none => .error (mkError .typeErr "Cannot convert object to primitive value")
end

/-- The method call `v[k](...args)`: the member is read, and called when it is callable;
calling anything else throws a TypeError. -/
def callMethod (v : JSVal) (k : String) (args : List JSVal) : Except JSVal JSVal := do
  let m ← getProp v k
  callFn stackLimit m v args

example : callMethod (.num 42) "toString" [] = .ok (.str "42") := rfl
example : callMethod (.str "a\nb") "split" [.str "\n"] = .ok (.arr [.str "a", .str "b"]) := rfl
example : getProp (.str "abc") "1" = .ok (.str "b") := rfl
example : getProp (.str "abc") "01" = .ok .undefined := rfl
example : callMethod (.arr [.num 1, .null, .obj .plain []]) "toString" [] = .ok (.str "1,,[object Object]") := rfl

/-! ## lib/Errors/index.js -/

/-- The expression `a && b` in a condition, where evaluating `b` may throw. -/
def andThen (a : Bool) (b : Except JSVal Bool) : Except JSVal Bool :=
  if a then b else .ok false

/-- The function `isError`: the truth value of the chain
`obj && obj.name && obj.message && obj.stack && typeof obj.name === "string" && ...`.
Each operand is evaluated only when all operands before it are truthy. -/
def isError (obj : JSVal) : Except JSVal Bool :=
  andThen (truthy obj) (do
    let name ← getProp obj "name"
    andThen (truthy name) (do
      let message ← getProp obj "message"
      andThen (truthy message) (do
        let stack ← getProp obj "stack"
        andThen (truthy stack) (do
          let name2 ← getProp obj "name"
          andThen (typeOf name2 = "string") (do
            let message2 ← getProp obj "message"
            andThen (typeOf message2 = "string") (do
              let stack2 ← getProp obj "stack"
              .ok (typeOf stack2 = "string")))))))

/-- The object literal that `toRuntimeResponse` returns. -/
structure RuntimeResponse where
  errorType : JSVal
  errorMessage : JSVal
  trace : JSVal

/-- The response as a JavaScript object: three enumerable data properties in literal order. -/
def RuntimeResponse.toJS (r : RuntimeResponse) : JSVal :=
  .obj .plain [("errorType", .data true r.errorType),
               ("errorMessage", .data true r.errorMessage),
               ("trace", .data true r.trace)]

/-- The object literal of the `catch` block of `toRuntimeResponse`. -/
def handledResponse : RuntimeResponse :=
  { errorType := .str "handled",
    errorMessage := .str ("callback called with Error argument, but there was a problem while " ++
      "retrieving one or more of its message, name, and stack"),
    trace := .arr [] }

/-- The `try` block of `toRuntimeResponse`. -/
def toRuntimeResponseTry (error : JSVal) : Except JSVal RuntimeResponse := do
  let isErr ← (if isNativeError error then .ok true else isError error)
  if isErr then
    let stack ← getProp error "stack"
    if !truthy stack then
      .error (mkError .error "Error stack is missing.")
    else
      let name ← getProp error "name"
      let message ← getProp error "message"
      let stack2 ← getProp error "stack"
      let parts ← callMethod stack2 "split" [.str "\n"]
      .ok { errorType := name, errorMessage := message,
            trace := if truthy parts then parts else .arr [] }
  else
    let text ← callMethod error "toString" []
    .ok { errorType := .str (typeOf error), errorMessage := text, trace := .arr [] }

/-- The function `toRuntimeResponse`: whatever the `try` block throws is caught and
replaced by the fixed literal. -/
def toRuntimeResponse (error : JSVal) : Except JSVal RuntimeResponse :=
  match toRuntimeResponseTry error with
  | .ok r => .ok r
  | .error _ => .ok handledResponse

example : toRuntimeResponse (.str "boom") =
    .ok { errorType := .str "string", errorMessage := .str "boom", trace := .arr [] } := rfl
example : toRuntimeResponse (mkError .error "boom") =
    .ok { errorType := .str "Error", errorMessage := .str "boom",
          trace := .arr [.str "Error: boom", .str "    at <anonymous>"] } := rfl
example : toRuntimeResponse .undefined = .ok handledResponse := rfl

/-! ## JSON.stringify -/

/-- Lower-case hexadecimal digit. -/
def hexDigit (n : Nat) : Char :=
  if n < 10 then Char.ofNat (48 + n) else Char.ofNat (87 + n)

/-- The escape of one character in `QuoteJSONString`. -/
def quoteChar (c : Char) : List Char :=
  if c = '"' then ['\\', '"']
  else if c = '\\' then ['\\', '\\']
  else if c = '\x08' then ['\\', 'b']
  else if c = '\x0c' then ['\\', 'f']
  else if c = '\n' then ['\\', 'n']
  else if c = '\r' then ['\\', 'r']
  else if c = '\t' then ['\\', 't']
  else if c.toNat < 32 then ['\\', 'u', '0', '0', hexDigit (c.toNat / 16), hexDigit (c.toNat % 16)]
  else [c]

/-- The characters of a quoted string, without the enclosing quotes. -/
def quoteChars : List Char → List Char
  | [] => []
  | c :: cs => quoteChar c ++ quoteChars cs

/-- The operation `QuoteJSONString`. -/
def quoteJSONString (s : String) : String :=
  String.mk ('"' :: (quoteChars s.data ++ ['"']))

/-- Whether a property is enumerable. -/
def JSProp.isEnumerable : JSProp → Bool
  | .data e _ => e
  | .getter e _ _ => e

/-- The own properties in order, a key counted at its first entry only. -/
def ownEntries : List (String × JSProp) → List String → List (String × JSProp)
  | [], _ => []
  | (k, p) :: rest, seen =>
    if k ∈ seen then ownEntries rest seen else (k, p) :: ownEntries rest (k :: seen)

/-- The enumerable own properties, in enumeration order. -/
def enumerableOwn (props : List (String × JSProp)) : List (String × JSProp) :=
  (ownEntries props []).filter (fun kp => kp.2.isEnumerable)

/-- The own properties of a value (primitives and arrays carry none in this model). -/
def ownProps : JSVal → List (String × JSProp)
  | .obj _ props => props
  | .fn _ _ _ props => props
  | _ => []

/-- The operation `SerializeJSONProperty` on a value already read from its holder, at the
given remaining depth: `none` is the result `undefined`.  The replacer, when there is
one, is a function of the value (the replacer of `toFormatted` ignores its key). -/
def serializeProperty (replacer : Option (JSVal → Except JSVal JSVal)) :
    Nat → JSVal → Except JSVal (Option String)
  | 0, _ => .error stackOverflow
  | fuel + 1, value => do
    let toJSON ← (match value with
      | .undefined | .null | .bool _ | .num _ | .str _ => .ok JSVal.undefined
      | _ => getProp value "toJSON")
    let value1 ← (if isCallable toJSON then callFn fuel toJSON value [] else .ok value)
    let value2 ← (match replacer with
      | some f => f value1
      | none => .ok value1)
    match value2 with
    | .null => .ok (some "null")
    | .bool b => .ok (some (if b then "true" else "false"))
    | .str s => .ok (some (quoteJSONString s))
    | .num n => .ok (some (toString n))
    | .bigint _ => .error (mkError .typeErr "Do not know how to serialize a BigInt")
    | .undefined => .ok none
    | .fn _ _ _ _ => .ok none
    | .builtin _ => .ok none
    | .arr items => do
      let parts ← items.mapM (fun x => do
        let r ← serializeProperty replacer fuel x
        .ok (r.getD "null"))
      .ok (some ("[" ++ joinWith "," parts ++ "]"))
    | .obj _ props => do
      let members ← (enumerableOwn props).mapM (fun kp => do
        let v ← readProp kp.2
        let r ← serializeProperty replacer fuel v
        .ok (r.map (fun t => quoteJSONString kp.1 ++ ":" ++ t)))
      .ok (some ("\x7b" ++ joinWith "," (members.filterMap id) ++ "\x7d"))

/-- The call `JSON.stringify(value, replacer)` without indentation. -/
def jsonStringify (replacer : Option (JSVal → Except JSVal JSVal)) (value : JSVal) :
    Except JSVal (Option String) :=
  serializeProperty replacer stackLimit value

/-- String concatenation `"\t" + x` where `x` is a result of `JSON.stringify`. -/
def tabPlus (x : Option String) : String :=
  "\t" ++ x.getD "undefined"

/-- Assignment `target[k] = v` on an object whose properties are all data properties. -/
def setProp : List (String × JSProp) → String → JSVal → List (String × JSProp)
  | [], k, v => [(k, .data true v)]
  | (key, p) :: rest, k, v =>
    if key = k then (key, .data true v) :: rest else (key, p) :: setProp rest k v

/-- The call `Object.assign(target, source)`: every enumerable own property of the
source is read and assigned to the target, in order. -/
def objectAssign : List (String × JSProp) → List (String × JSProp) →
    Except JSVal (List (String × JSProp))
  | target, [] => .ok target
  | target, (k, p) :: rest => do
    let v ← readProp p
    objectAssign (setProp target k v) rest

/-- The function `__withEnumerableProperties`. -/
def _withEnumerableProperties (error : JSVal) : Except JSVal JSVal :=
  if instanceOfError error then do
    let name ← getProp error "name"
    let message ← getProp error "message"
    let code ← getProp error "code"
    let ret ← objectAssign [("errorType", .data true name), ("errorMessage", .data true message),
      ("code", .data true code)] (enumerableOwn (ownProps error))
    let stack ← getProp error "stack"
    if typeOf stack = "string" then do
      let stack2 ← getProp error "stack"
      let parts ← callMethod stack2 "split" [.str "\n"]
      .ok (.obj .plain (setProp ret "stack" parts))
    else .ok (.obj .plain ret)
  else .ok error

/-- The function `toFormatted`. -/
def toFormatted (error : JSVal) : Except JSVal String :=
  match jsonStringify (some _withEnumerableProperties) error with
  | .ok r => .ok (tabPlus r)
  | .error _ => do
    let resp ← toRuntimeResponse error
    let r ← jsonStringify none resp.toJS
    .ok (tabPlus r)

example : toFormatted (.str "a\"b") = .ok "\t\"a\\\"b\"" := rfl
example : toFormatted .undefined = .ok "\tundefined" := rfl
example : toFormatted (.obj .error [("stack", .data false (.str "E: x\n at y")),
    ("message", .data false (.str "x")), ("extra", .data true (.num 3))]) =
  .ok "\t\x7b\"errorType\":\"Error\",\"errorMessage\":\"x\",\"extra\":3,\"stack\":[\"E: x\",\" at y\"]\x7d" := rfl

/-! ## JSON.parse

The parser follows the JSON grammar.  Its result is `none` when the text is not JSON
(where `JSON.parse` throws a SyntaxError) and when the text holds a number with a
fraction or an exponent or a string with an unpaired surrogate escape, which the value
model does not cover. -/

/-- JSON white space. -/
def isJsonWs (c : Char) : Bool :=
  c = ' ' || c = '\t' || c = '\n' || c = '\r'

/-- Drop leading white space. -/
def skipWs : List Char → List Char
  | [] => []
  | c :: cs => if isJsonWs c then skipWs cs else c :: cs

/-- Value of a hexadecimal digit. -/
def hexVal (c : Char) : Option Nat :=
  if '0' ≤ c ∧ c ≤ '9' then some (c.toNat - 48)
  else if 'a' ≤ c ∧ c ≤ 'f' then some (c.toNat - 87)
  else if 'A' ≤ c ∧ c ≤ 'F' then some (c.toNat - 55)
  else none

/-- Value of four hexadecimal digits. -/
def hex4 (a b c d : Char) : Option Nat :=
  match hexVal a, hexVal b, hexVal c, hexVal d with
  | some x, some y, some z, some w => some (((x * 16 + y) * 16 + z) * 16 + w)
  | _, _, _, _ => none

/-- The character that a one-letter escape stands for. -/
def unescape (e : Char) : Option Char :=
  if e = '"' then some '"'
  else if e = '\\' then some '\\'
  else if e = '/' then some '/'
  else if e = 'b' then some '\x08'
  else if e = 'f' then some '\x0c'
  else if e = 'n' then some '\n'
  else if e = 'r' then some '\r'
  else if e = 't' then some '\t'
  else none

/-- Prepend a character to the string of a parse result. -/
def consResult (c : Char) : Option (List Char × List Char) → Option (List Char × List Char)
  | some (s, r) => some (c :: s, r)
  | none => none

/-- The escape sequence after a backslash: the character it stands for, and how many
characters it takes.  A `\u` escape of a high surrogate must be followed by the `\u`
escape of a low surrogate; the two stand for one character. -/
def decodeEscape : List Char → Option (Char × Nat)
  | [] => none
  | e :: rest1 =>
    if e = 'u' then
      match rest1 with
      | a :: b :: c :: d :: rest2 =>
        match hex4 a b c d with
        | none => none
        | some n =>
          if 0xD800 ≤ n ∧ n < 0xDC00 then
            match rest2 with
            | b1 :: u1 :: a2 :: b2 :: c2 :: d2 :: _ =>
              if b1 = '\\' ∧ u1 = 'u' then
                match hex4 a2 b2 c2 d2 with
                | none => none
                | some l =>
                  if 0xDC00 ≤ l ∧ l < 0xE000 then
                    some (Char.ofNat (0x10000 + (n - 0xD800) * 0x400 + (l - 0xDC00)), 11)
                  else none
              else none
            | _ => none
          else if 0xDC00 ≤ n ∧ n < 0xE000 then none
          else some (Char.ofNat n, 5)
      | _ => none
    else
      match unescape e with
      | some x => some (x, 1)
      | none => none

/-- The characters of a JSON string after its opening quote: the string read, and the
input after the closing quote.  `skip` counts the characters of an escape sequence
still to be passed over. -/
def parseStringChars : List Char → Nat → Option (List Char × List Char)
  | [], _ => none
  | _ :: rest, skip + 1 => parseStringChars rest skip
  | c :: rest, 0 =>
    if c = '"' then some ([], rest)
    else if c = '\\' then
      match decodeEscape rest with
      | some (x, k) => consResult x (parseStringChars rest k)
      | none => none
    else if c.toNat < 32 then none
    else consResult c (parseStringChars rest 0)

/-- A JSON number without fraction and exponent: an optional minus sign and decimal
digits without a leading zero. -/
def parseNumber (cs : List Char) : Option (JSVal × List Char) :=
  let neg := cs.head? = some '-'
  let body := if neg then cs.drop 1 else cs
  let digits := body.takeWhile Char.isDigit
  let rest := body.dropWhile Char.isDigit
  if digits = [] then none
  else if digits.head? = some '0' ∧ digits.length ≠ 1 then none
  else if rest.head? = some '.' ∨ rest.head? = some 'e' ∨ rest.head? = some 'E' then none
  else
    match digitsToNat digits 0 with
    | some n => some (.num (if neg then -(n : Int) else n), rest)
    | none => none

mutual
/-- A JSON value, after optional white space. -/
def parseValue : Nat → List Char → Option (JSVal × List Char)
  | 0, _ => none
  | fuel + 1, cs =>
    match skipWs cs with
    | [] => none
    | c :: rest =>
      if c = '"' then
        match parseStringChars rest 0 with
        | some (s, r) => some (.str (String.mk s), r)
        | none => none
      else if c = '[' then
        match skipWs rest with
        | [] => none
        | c1 :: r1 =>
          if c1 = ']' then some (.arr [], r1)
          else
            match parseItems fuel (c1 :: r1) with
            | some (vs, r) => some (.arr vs, r)
            | none => none
      else if c = '\x7b' then
        match skipWs rest with
        | [] => none
        | c1 :: r1 =>
          if c1 = '\x7d' then some (.obj .plain [], r1)
          else
            match parseMembers fuel (c1 :: r1) [] with
            | some (ps, r) => some (.obj .plain ps, r)
            | none => none
      else if "true".data.isPrefixOf (c :: rest) then some (.bool true, rest.drop 3)
      else if "false".data.isPrefixOf (c :: rest) then some (.bool false, rest.drop 4)
      else if "null".data.isPrefixOf (c :: rest) then some (.null, rest.drop 3)
      else parseNumber (c :: rest)
/-- The elements of a non-empty array up to and including the closing bracket. -/
def parseItems : Nat → List Char → Option (List JSVal × List Char)
  | 0, _ => none
  | fuel + 1, cs =>
    match parseValue fuel cs with
    | none => none
    | some (v, r) =>
      match skipWs r with
      | [] => none
      | c :: r1 =>
        if c = ',' then
          match parseItems fuel r1 with
          | some (vs, r2) => some (v :: vs, r2)
          | none => none
        else if c = ']' then some ([v], r1)
        else none
/-- The members of a non-empty object up to and including the closing brace; a key
that occurs again overwrites the value of its first entry. -/
def parseMembers : Nat → List Char → List (String × JSProp) →
    Option (List (String × JSProp) × List Char)
  | 0, _, _ => none
  | fuel + 1, cs, acc =>
    match skipWs cs with
    | [] => none
    | q :: r0 =>
      if q = '"' then
        match parseStringChars r0 0 with
        | none => none
        | some (k, r1) =>
          match skipWs r1 with
          | [] => none
          | colon :: r2 =>
            if colon = ':' then
              match parseValue fuel r2 with
              | none => none
              | some (v, r3) =>
                match skipWs r3 with
                | [] => none
                | c :: r4 =>
                  if c = ',' then parseMembers fuel r4 (setProp acc (String.mk k) v)
                  else if c = '\x7d' then some (setProp acc (String.mk k) v, r4)
                  else none
            else none
      else none
end

/-- The call `JSON.parse(text)`. -/
def jsonParse (text : String) : Option JSVal :=
  match parseValue (text.data.length + 1) text.data with
  | some (v, rest) => if skipWs rest = [] then some v else none
  | none => none

example : jsonParse "[1, \"a\\n\\u0041\", \x7b\"k\": null, \"k\": -20\x7d, true ]" =
    some (.arr [.num 1, .str "a\nA", .obj .plain [("k", .data true (.num (-20)))], .bool true]) := rfl
example : jsonParse "\"\\ud83d\\ude00\"" = some (.str "😀") := rfl
example : jsonParse "01" = none := rfl
example : jsonParse "[1,]" = none := rfl

/-! ## lib/utils/UserFunction.js -/

/-- What `load` can throw: one of the runtime's own error classes with its message, or
any other JavaScript value, thrown by code that `load` calls. -/
inductive LoadError
  | malformedHandlerName (message : String)
  | handlerNotFound (message : String)
  | importModuleError (message : String)
  | userCodeSyntaxError (message : String)
  | thrown (v : JSVal)

/-- The constructor of `ExtendedError` and its subclasses: `super(reason)` sets the
message to `ToString(reason)` unless the reason is `undefined`; a conversion that throws
makes the construction throw. -/
def extendedError (cls : String → LoadError) (reason : JSVal) : LoadError :=
  match reason with
  | .undefined => cls ""
  | _ =>
    match toStringOp stackLimit reason with
    | .ok s => cls s
    | .error v => .thrown v

/-- What the module system and the file system of the host do. -/
structure Host where
  /-- The call `fs.existsSync(path)`. -/
  existsSync : String → Bool
  /-- The call `path.resolve(appRoot, moduleRoot, module)`. -/
  pathResolve : String → String → String → String
  /-- The call `require(path)`: the exports of the module, or what loading it throws. -/
  requireModule : String → Except JSVal JSVal
  /-- The call `require.resolve(request, { paths })`. -/
  requireResolve : String → List String → Except JSVal String

/-- The line terminators, which `.` in a regular expression does not match. -/
def isLineTerminator (c : Char) : Bool :=
  c = '\n' || c = '\r' || c.toNat = 0x2028 || c.toNat = 0x2029

/-- The match of `FUNCTION_EXPR = /^([^.]*)\.(.*)$/` against a string, as its two groups.
The first group cannot pass a dot, and the character after it must be a dot, so the first
group is the text before the first dot; the second group runs to the end of the input
and, as `.` matches no line terminator, the rest must contain none. -/
def matchFunctionExpr (s : String) : Option (String × String) :=
  match s.data.dropWhile (fun c => c != '.') with
  | [] => none
  | _ :: rest =>
    if rest.all (fun c => !isLineTerminator c) then
      some (String.mk (s.data.takeWhile (fun c => c != '.')), String.mk rest)
    else none

/-- The loop of `path.posix.basename(path)`: the index runs from the end to the start;
`e` is the variable `end` (`none` for -1).  The result is the pair of `start` and `end`. -/
def basenameScan (path : List Char) : Nat → Option Nat → Bool → Nat × Option Nat
  | 0, e, _ => (0, e)
  | i + 1, e, matchedSlash =>
    if path.getD i ' ' = '/' then
      if !matchedSlash then (i + 1, e) else basenameScan path i e matchedSlash
    else if e = none then basenameScan path i (some (i + 1)) false
    else basenameScan path i e matchedSlash

/-- The call `path.basename(path)` of the POSIX `path` module. -/
def basename (path : String) : String :=
  match basenameScan path.data path.data.length none true with
  | (_, none) => ""
  | (start, some e) => String.mk ((path.data.take e).drop start)

/-- The function `_moduleRootAndHandler`. -/
def _moduleRootAndHandler (fullHandlerString : String) : String × String :=
  let handlerString := basename fullHandlerString
  let moduleRoot := substring0 fullHandlerString (indexOf fullHandlerString handlerString)
  (moduleRoot, handlerString)

/-- The function `_splitHandlerString`. -/
def _splitHandlerString (handler : String) : Except LoadError (String × String) :=
  match matchFunctionExpr handler with
  | none => .error (.malformedHandlerName "Bad handler")
  | some (m, f) => .ok (m, f)

/-- The function `_resolveHandler`: the reduction of `nested && nested[key]` over the
dot-separated keys. -/
def _resolveHandler (object : JSVal) (nestedProperty : String) : Except JSVal JSVal :=
  (jsSplit nestedProperty ".").foldlM
    (fun nested key => if truthy nested then getProp nested key else .ok nested) object

/-- The function `_canLoadAsFile`. -/
def _canLoadAsFile (h : Host) (modulePath : String) : Bool :=
  h.existsSync modulePath || h.existsSync (modulePath ++ ".js")

/-- The function `_tryRequire`. -/
def _tryRequire (h : Host) (appRoot moduleRoot moduleName : String) : Except JSVal JSVal :=
  let lambdaStylePath := h.pathResolve appRoot moduleRoot moduleName
  if _canLoadAsFile h lambdaStylePath then h.requireModule lambdaStylePath
  else do
    let nodeStylePath ← h.requireResolve moduleName [appRoot, moduleRoot]
    h.requireModule nodeStylePath

/-- The `catch` block of `_loadUserApp`; reading `e.code` can itself throw. -/
def loadUserAppCatch (e : JSVal) : LoadError :=
  if instanceOfSyntaxError e then extendedError .userCodeSyntaxError e
  else
    match getProp e "code" with
    | .error t => .thrown t
    | .ok code =>
      match code with
      | .undefined => .thrown e
      | _ =>
        match getProp e "code" with
        | .error t => .thrown t
        | .ok (.str c) =>
          if c = "MODULE_NOT_FOUND" then extendedError .importModuleError e else .thrown e
        | .ok _ => .thrown e

/-- The function `_loadUserApp`. -/
def _loadUserApp (h : Host) (appRoot moduleRoot moduleName : String) : Except LoadError JSVal :=
  match _tryRequire h appRoot moduleRoot moduleName with
  | .ok m => .ok m
  | .error e => .error (loadUserAppCatch e)

/-- The message of the error that `_throwIfInvalidHandler` throws. -/
def invalidHandlerMessage (fullHandlerString : String) : String :=
  "'" ++ fullHandlerString ++
    "' is not a valid handler name. Use absolute paths when specifying root directories in handler names."

/-- The function `_throwIfInvalidHandler`. -/
def _throwIfInvalidHandler (fullHandlerString : String) : Except LoadError Unit :=
  if includes fullHandlerString ".." then
    .error (.malformedHandlerName (invalidHandlerMessage fullHandlerString))
  else .ok ()

/-- The function `load`. -/
def load (h : Host) (appRoot fullHandlerString : String) : Except LoadError JSVal := do
  _throwIfInvalidHandler fullHandlerString
  let (moduleRoot, moduleAndHandler) := _moduleRootAndHandler fullHandlerString
  let (moduleName, handlerPath) ← _splitHandlerString moduleAndHandler
  let userApp ← _loadUserApp h appRoot moduleRoot moduleName
  let handlerFunc ← (match _resolveHandler userApp handlerPath with
    | .ok v => .ok v
    | .error t => .error (LoadError.thrown t))
  if !truthy handlerFunc then
    .error (.handlerNotFound (fullHandlerString ++ " is undefined or not exported"))
  else if typeOf handlerFunc ≠ "function" then
    .error (.handlerNotFound (fullHandlerString ++ " is not a function"))
  else .ok handlerFunc

example : basename "./somepath/something/module.nestedobj.handler" = "module.nestedobj.handler" := by
  decide
example : basename "a/b//" = "b" := by decide
example : basename "/" = "" := by decide
example : _moduleRootAndHandler "./somepath/something/module.nestedobj.handler" =
    ("./somepath/something/", "module.nestedobj.handler") := by decide
example : matchFunctionExpr "index.a.b" = some ("index", "a.b") := by decide
example : matchFunctionExpr "index" = none := by decide

/-- The error that the module system throws for a module it cannot find. -/
def moduleNotFound (request : String) : JSVal :=
  .obj .error [("stack", .data false (.str ("Error: Cannot find module '" ++ request ++ "'"))),
               ("message", .data false (.str ("Cannot find module '" ++ request ++ "'"))),
               ("code", .data true (.str "MODULE_NOT_FOUND"))]

/-- A host for examples: `modules` lists the files that exist, each with what requiring
it does; paths are joined with `/`, and no other module can be resolved. -/
def fixtureHost (modules : List (String × Except JSVal JSVal)) : Host where
  existsSync := fun p => (modules.lookup p).isSome
  pathResolve := fun appRoot moduleRoot moduleName => appRoot ++ "/" ++ moduleRoot ++ moduleName
  requireModule := fun p => (modules.lookup p).getD (.error (moduleNotFound p))
  requireResolve := fun request _ => .error (moduleNotFound request)

/-- A module at `/app/index` whose export `handler` is the value `v`. -/
def moduleExporting (v : JSVal) : Host :=
  fixtureHost [("/app/index", .ok (.obj .plain [("handler", .data true v)]))]

/-- A native error whose `name` has been set to the number 42. -/
def errorNamed42 : JSVal :=
  .obj .error [("stack", .data false (.str "Error: boom\n    at handler (/var/task/index.js:1:1)")),
               ("message", .data false (.str "boom")),
               ("name", .data true (.num 42))]

/-- A native error whose `stack` has been set to the empty string. -/
def emptyStackError : JSVal :=
  .obj .error [("stack", .data false (.str "")), ("message", .data false (.str "boom"))]

/-- A plain object with a name and a message and no stack. -/
def stacklessObject : JSVal :=
  .obj .plain [("name", .data true (.str "MyError")), ("message", .data true (.str "boom"))]

/-- A native error whose `name` has been set to the BigInt `10n`. -/
def errorNamedBigInt : JSVal :=
  .obj .error [("stack", .data false (.str "Error: boom\n    at handler (/var/task/index.js:1:1)")),
               ("message", .data false (.str "boom")),
               ("name", .data true (.bigint 10))]

/-- The normalized error record with the given type, message and trace lines. -/
def normalizedError (t m : String) (tr : List String) : RuntimeResponse :=
  { errorType := .str t, errorMessage := .str m, trace := .arr (tr.map JSVal.str) }

/-- The JSON text of a normalized error record. -/
def normalizedErrorText (t m : String) (tr : List String) : String :=
  "\x7b" ++ joinWith "," [quoteJSONString "errorType" ++ ":" ++ quoteJSONString t,
    quoteJSONString "errorMessage" ++ ":" ++ quoteJSONString m,
    quoteJSONString "trace" ++ ":" ++ ("[" ++ joinWith "," (tr.map quoteJSONString) ++ "]")] ++ "\x7d"

/-! ## lib/RuntimeClient/RuntimeClient.js

The HTTP client is a collaborator of `RuntimeClient`: a POST is modelled by the request
that `_post` hands to `http.request` and ends with the body string.  The module
`../Errors/XRayError` is not part of the embedded sources; its function `toFormatted` is
a parameter. -/

/-- The UTF-8 encoding of one character. -/
def utf8Encode (c : Char) : List Nat :=
  let n := c.toNat
  if n < 0x80 then [n]
  else if n < 0x800 then [0xC0 + n / 0x40, 0x80 + n % 0x40]
  else if n < 0x10000 then [0xE0 + n / 0x1000, 0x80 + n / 0x40 % 0x40, 0x80 + n % 0x40]
  else [0xF0 + n / 0x40000, 0x80 + n / 0x1000 % 0x40, 0x80 + n / 0x40 % 0x40, 0x80 + n % 0x40]

/-- The bytes of `Buffer.from(s)`: the UTF-8 encoding of the string. -/
def utf8Bytes : List Char → List Nat
  | [] => []
  | c :: cs => utf8Encode c ++ utf8Bytes cs

/-- The number of UTF-16 code units of one character. -/
def utf16Units (c : Char) : Nat :=
  if c.toNat < 0x10000 then 1 else 2

/-- The property `length` of a JavaScript string: its number of UTF-16 code units. -/
def utf16Length : List Char → Nat
  | [] => 0
  | c :: cs => utf16Units c + utf16Length cs

/-- The TypeError that `Buffer.from(undefined)` throws. -/
def invalidArgType : JSVal :=
  mkError .typeErr ("The first argument must be of type string or an instance of Buffer, " ++
    "ArrayBuffer, or Array or an Array-like Object. Received undefined")

/-- The error that `_trySerializeResponse` throws. -/
def unableToStringify : JSVal :=
  mkError .error "Unable to stringify response body"

/-- The expression `Buffer.from(bodyString).length`, where `bodyString` is a result of
`JSON.stringify`; `Buffer.from(undefined)` throws a TypeError. -/
def bufferFromLength : Option String → Except JSVal Nat
  | some s => .ok (utf8Bytes s.data).length
  | none => .error invalidArgType

/-- The constant `ERROR_TYPE_HEADER`. -/
def ERROR_TYPE_HEADER : String := "Lambda-Runtime-Function-Error-Type"

/-- The constant `XRAY_ERROR_CAUSE`. -/
def XRAY_ERROR_CAUSE : String := "Lambda-Runtime-Function-XRay-Error-Cause"

/-- The fields of a `RuntimeClient` that `_post` reads, as set by the constructor. -/
structure RuntimeClient where
  hostname : String
  port : JSVal

/-- The request that `_post` issues: the options given to `http.request`, and the value
of `bodyString` given to `end` (a result of `JSON.stringify`). -/
structure PostRequest where
  hostname : String
  port : JSVal
  path : String
  method : String
  headers : List (String × JSProp)
  body : Option String

/-- The function `_trySerializeResponse`: `undefined` is replaced by `null`, and
whatever `JSON.stringify` throws is replaced by a fixed Error.  The result is the result
of `JSON.stringify`, which is `undefined` (`none`) for some values. -/
def _trySerializeResponse (body : JSVal) : Except JSVal (Option String) :=
  match jsonStringify none (match body with
      | .undefined => .null
      | v => v) with
  | .ok r => .ok r
  | .error _ => .error unableToStringify

/-- The method `_post`. -/
def _post (client : RuntimeClient) (path : String) (body : JSVal)
    (headers : List (String × JSProp)) : Except JSVal PostRequest := do
  let bodyString ← _trySerializeResponse body
  let contentLength ← bufferFromLength bodyString
  let allHeaders ← objectAssign
    [("Content-Type", .data true (.str "application/json")),
     ("Content-Length", .data true (.num contentLength))]
    (enumerableOwn headers)
  .ok { hostname := client.hostname, port := client.port, path := path, method := "POST",
        headers := allHeaders, body := bodyString }

/-- The method `postInvocationResponse`. -/
def postInvocationResponse (client : RuntimeClient) (response : JSVal) (id : String) :
    Except JSVal PostRequest :=
  _post client ("/2018-06-01/runtime/invocation/" ++ id ++ "/response") response []

/-- The method `postInitError`. -/
def postInitError (client : RuntimeClient) (error : JSVal) : Except JSVal PostRequest := do
  let response ← toRuntimeResponse error
  _post client "/2018-06-01/runtime/init/error" response.toJS
    [(ERROR_TYPE_HEADER, .data true response.errorType)]

/-- The method `postInvocationError`; `xrayToFormatted` is `XRayError.toFormatted`. -/
def postInvocationError (client : RuntimeClient) (xrayToFormatted : JSVal → Except JSVal JSVal)
    (error : JSVal) (id : String) : Except JSVal PostRequest := do
  let response ← toRuntimeResponse error
  let xrayString ← xrayToFormatted error
  _post client ("/2018-06-01/runtime/invocation/" ++ id ++ "/error") response.toJS
    [(ERROR_TYPE_HEADER, .data true response.errorType),
     (XRAY_ERROR_CAUSE, .data true xrayString)]

/-- The value of the header `key` of a request. -/
def PostRequest.header (req : PostRequest) (key : String) : Option JSVal :=
  match lookupProp key req.headers with
  | some (.data _ v) => some v
  | _ => none

/-- A response payload that is a function, as in `callback(null, () => 1)`. -/
def functionPayload : JSVal :=
  .fn "() => 1" false (.num 1) []

/-- A client for examples. -/
def fixtureClient : RuntimeClient :=
  { hostname := "127.0.0.1", port := .num 9001 }

example : (postInvocationResponse fixtureClient .undefined "r1").map (fun r => (r.path, r.body)) =
    .ok ("/2018-06-01/runtime/invocation/r1/response", some "null") := rfl
example : (postInvocationResponse fixtureClient (.str "é") "r1").map
    (fun r => r.header "Content-Length") = .ok (some (.num 4)) := rfl

/-- The request `req` is an error report of the record `resp` to `path`: a POST to that
path whose body is the JSON encoding of the record and whose error-type header is the
`errorType` of the record. -/
def PostRequest.reports (req : PostRequest) (path : String) (resp : RuntimeResponse) : Prop :=
  req.path = path ∧ req.method = "POST" ∧
    jsonStringify none resp.toJS = .ok req.body ∧
    req.header ERROR_TYPE_HEADER = some resp.errorType

/-- The walk of a property path as the specification words it: the segments are read one
at a time in order, and the walk stops with "not found" (`none`) as soon as the value to
read from is `undefined` or `null`. -/
def walkPath : JSVal → List String → Except JSVal (Option JSVal)
  | v, [] => .ok (some v)
  | v, k :: ks =>
    if isNullish v then .ok none
    else do
      let w ← getProp v k
      walkPath w ks

/-- A handler function, as in `exports.handler = async (event) => 1`. -/
def handlerFunction : JSVal :=
  .fn "async (event) => 1" false (.num 1) []

/-! # Theorems -/

/-! ## Handler validation -/

theorem includes_eq_true_iff (s pat : String) :
    includes s pat = true ↔ pat.data <:+: s.data := by
  unfold includes
  rw [List.any_eq_true]
  constructor
  · rintro ⟨t, ht, hp⟩
    replace ht := (List.mem_tails t s.data).mp ht
    rw [List.isPrefixOf_iff_prefix] at hp
    exact List.infix_iff_prefix_suffix.mpr ⟨t, hp, ht⟩
  · intro h
    obtain ⟨t, hp, ht⟩ := List.infix_iff_prefix_suffix.mp h
    exact ⟨t, (List.mem_tails t s.data).mpr ht, List.isPrefixOf_iff_prefix.mpr hp⟩

/-- C1: a handler string that contains `..` anywhere makes `load` throw
MalformedHandlerName, whatever the application root and whatever the file system and the
module loader of the host would answer. -/
theorem load_dotdot_malformed (h : Host) (appRoot d : String)
    (hd : ['.', '.'] <:+: d.data) :
    load h appRoot d = .error (.malformedHandlerName (invalidHandlerMessage d)) := by
  have hi : includes d ".." = true := (includes_eq_true_iff d "..").mpr hd
  simp only [load, _throwIfInvalidHandler, hi, if_true]
  rfl

theorem load_dotdot_malformed_witness :
    ['.', '.'] <:+: ("../index.handler" : String).data ∧
    load (fixtureHost [("/app/../index", .ok (.obj .plain []))]) "/app" "../index.handler" =
      .error (.malformedHandlerName (invalidHandlerMessage "../index.handler")) :=
  ⟨⟨[], "/index.handler".data, rfl⟩,
   load_dotdot_malformed _ "/app" "../index.handler" ⟨[], "/index.handler".data, rfl⟩⟩

theorem matchFunctionExpr_no_dot (s : String) (hs : '.' ∉ s.data) :
    matchFunctionExpr s = none := by
  have : s.data.dropWhile (fun c => c != '.') = [] := by
    rw [List.dropWhile_eq_nil_iff]
    intro c hc
    have : c ≠ '.' := fun e => hs (e ▸ hc)
    simpa using this
  simp [matchFunctionExpr, this]

/-- C2: a handler string whose final path segment (its basename) contains no dot makes
`load` throw MalformedHandlerName, and the whole outcome, message included, is fixed by
the handler string alone: it is the same for every application root and every host, so
no answer of the file system or of the module loader is used.  The message is that of
`_throwIfInvalidHandler` when the string contains `..` and `Bad handler` otherwise. -/
theorem load_no_dot_malformed (h : Host) (appRoot d : String)
    (hd : '.' ∉ (basename d).data) :
    load h appRoot d =
      .error (.malformedHandlerName
        (if includes d ".." then invalidHandlerMessage d else "Bad handler")) := by
  by_cases hi : includes d ".." = true
  · simp only [load, _throwIfInvalidHandler, hi, if_true]
    rfl
  · have hm : matchFunctionExpr (basename d) = none := matchFunctionExpr_no_dot _ hd
    simp only [load, _throwIfInvalidHandler, hi, _moduleRootAndHandler, _splitHandlerString, hm]
    rfl

theorem load_no_dot_malformed_witness :
    '.' ∉ (basename "src/index").data ∧
    load (fixtureHost [("/app/src/index", .ok (.obj .plain []))]) "/app" "src/index" =
      .error (.malformedHandlerName "Bad handler") :=
  ⟨by decide, load_no_dot_malformed _ "/app" "src/index" (by decide)⟩

/-! ## Handler lookup and module loading -/

/-- C3: exports that are present but falsy (`0`, the empty string, `false`) are reported
by `load` as "is undefined or not exported", not as "is not a function". -/
theorem load_falsy_export_reported_undefined :
    load (moduleExporting (.num 0)) "/app" "index.handler" =
      .error (.handlerNotFound "index.handler is undefined or not exported") ∧
    load (moduleExporting (.str "")) "/app" "index.handler" =
      .error (.handlerNotFound "index.handler is undefined or not exported") ∧
    load (moduleExporting (.bool false)) "/app" "index.handler" =
      .error (.handlerNotFound "index.handler is undefined or not exported") ∧
    load (moduleExporting (.num 7)) "/app" "index.handler" =
      .error (.handlerNotFound "index.handler is not a function") :=
  ⟨rfl, rfl, rfl, rfl⟩

/-- C4: when the loaded module throws `undefined`, `_loadUserApp` does not re-raise that
value: reading `e.code` in the `catch` block throws a TypeError, and `load` fails with it. -/
theorem load_throw_undefined_not_reraised :
    load (fixtureHost [("/app/index", .error .undefined)]) "/app" "index.handler" =
      .error (.thrown (mkError .typeErr "Cannot read property code of undefined")) ∧
    load (fixtureHost [("/app/index", .error (.str "stop"))]) "/app" "index.handler" =
      .error (.thrown (.str "stop")) ∧
    load (fixtureHost []) "/app" "index.handler" =
      .error (.importModuleError "Error: Cannot find module 'index'") :=
  ⟨rfl, rfl, rfl⟩

/-! ## toRuntimeResponse -/

theorem ok_bind {ε α β : Type} (a : α) (f : α → Except ε β) :
    (Except.ok a >>= f) = f a := rfl

theorem error_bind {ε α β : Type} (e : ε) (f : α → Except ε β) :
    ((Except.error e : Except ε α) >>= f) = Except.error e := rfl

theorem callMethod_split_str (s : String) :
    callMethod (.str s) "split" [.str "\n"] = .ok (.arr ((jsSplit s "\n").map JSVal.str)) :=
  rfl

theorem truthy_arr (items : List JSVal) : truthy (.arr items) = true := rfl

theorem truthy_str (s : String) (hs : s ≠ "") : truthy (.str s) = true := by
  simp [truthy, hs]

/-- C5: for a native error whose `name` is not a string, `toRuntimeResponse` returns that
value as `errorType`: here the number 42, not a string. -/
theorem toRuntimeResponse_errorType_number :
    toRuntimeResponse errorNamed42 =
      .ok { errorType := .num 42, errorMessage := .str "boom",
            trace := .arr [.str "Error: boom", .str "    at handler (/var/task/index.js:1:1)"] } :=
  rfl

/-- C6: for an error value (a native error, or a value that `isError` accepts) whose
`name`, `message` and `stack` read as the strings `n`, `m` and the non-empty `s`,
`toRuntimeResponse` returns `errorType = n`, `errorMessage = m` and as `trace` the pieces
of `s` between its newline characters, in order. -/
theorem toRuntimeResponse_error (v : JSVal) (n m s : String)
    (herr : isNativeError v = true ∨ isError v = .ok true)
    (hn : getProp v "name" = .ok (.str n))
    (hm : getProp v "message" = .ok (.str m))
    (hs : getProp v "stack" = .ok (.str s))
    (hne : s ≠ "") :
    toRuntimeResponse v =
      .ok { errorType := .str n, errorMessage := .str m,
            trace := .arr ((jsSplit s "\n").map JSVal.str) } := by
  have hcond : (if isNativeError v then (Except.ok true : Except JSVal Bool) else isError v)
      = .ok true := by
    rcases herr with h | h
    · simp [h]
    · by_cases hnat : isNativeError v = true
      · simp [hnat]
      · simp [hnat, h]
  have ht : truthy (JSVal.str s) = true := truthy_str s hne
  simp [toRuntimeResponse, toRuntimeResponseTry, hcond, hn, hm, hs, ht,
    callMethod_split_str, truthy_arr, ok_bind]

theorem toRuntimeResponse_error_witness :
    toRuntimeResponse (mkError .error "boom") =
      .ok { errorType := .str "Error", errorMessage := .str "boom",
            trace := .arr [.str "Error: boom", .str "    at <anonymous>"] } :=
  toRuntimeResponse_error (mkError .error "boom") "Error" "boom"
    "Error: boom\n    at <anonymous>" (Or.inl rfl) rfl rfl rfl (by decide)

theorem response_ne_of_errorType_ne (a b : RuntimeResponse) (h : a.errorType ≠ b.errorType) :
    (Except.ok a : Except JSVal RuntimeResponse) ≠ .ok b := by
  intro e
  injection e with e
  exact h (congrArg RuntimeResponse.errorType e)

theorem str_ne_of_ne (a b : String) (h : a ≠ b) : JSVal.str a ≠ JSVal.str b := by
  intro e
  injection e with e
  exact h e

/-- C7, as stated, fails: a native error named `Error` with message `boom` and an empty
stack does not yield `errorType = "Error"`, and an object with a name and a message and
no stack does not yield its name either. -/
theorem toRuntimeResponse_empty_stack_counterexample :
    toRuntimeResponse emptyStackError ≠
      .ok { errorType := .str "Error", errorMessage := .str "boom", trace := .arr [] } ∧
    toRuntimeResponse stacklessObject ≠
      .ok { errorType := .str "MyError", errorMessage := .str "boom", trace := .arr [] } :=
  ⟨response_ne_of_errorType_ne handledResponse _ (str_ne_of_ne _ _ (by decide)),
   response_ne_of_errorType_ne
     { errorType := .str "object", errorMessage := .str "[object Object]", trace := .arr [] } _
     (str_ne_of_ne _ _ (by decide))⟩

/-- C7, amended: let the `stack` of `v` read as a falsy value (missing, or the empty
string).  If `v` is a native error, `toRuntimeResponse` returns the fixed record of its
`catch` block.  If `v` is not a native error and its `name` and `message` can be read,
`v` is handled as a non-error value: `errorType` is `typeof v`, `errorMessage` is the
result of `v.toString()` and `trace` is empty, or the fixed record when that call throws. -/
theorem toRuntimeResponse_falsy_stack (v st : JSVal)
    (hs : getProp v "stack" = .ok st) (hf : truthy st = false) :
    (isNativeError v = true → toRuntimeResponse v = .ok handledResponse) ∧
    (isNativeError v = false →
      ∀ x y, getProp v "name" = .ok x → getProp v "message" = .ok y →
        toRuntimeResponse v =
          match callMethod v "toString" [] with
          | .ok t => .ok { errorType := .str (typeOf v), errorMessage := t, trace := .arr [] }
          | .error _ => .ok handledResponse) := by
  constructor
  · intro hnat
    simp [toRuntimeResponse, toRuntimeResponseTry, hnat, hs, hf, ok_bind, error_bind]
  · intro hnat x y hx hy
    have hie : isError v = .ok false := by
      simp only [isError, andThen, hx, hy, hs, hf, ok_bind]
      by_cases h1 : truthy v = true <;> by_cases h2 : truthy x = true <;>
        by_cases h3 : truthy y = true <;> simp [h1, h2, h3]
    simp only [toRuntimeResponse, toRuntimeResponseTry, hnat, hie, ok_bind]
    cases hc : callMethod v "toString" [] <;> simp [ok_bind, error_bind]

theorem toRuntimeResponse_falsy_stack_witness :
    toRuntimeResponse emptyStackError = .ok handledResponse :=
  (toRuntimeResponse_falsy_stack emptyStackError (.str "") rfl rfl).1 rfl

/-- C8, as stated, fails at `undefined`: the result is the fixed record of the `catch`
block, whose `errorType` is not the type tag `"undefined"`. -/
theorem toRuntimeResponse_undefined_counterexample :
    toRuntimeResponse .undefined = .ok handledResponse ∧
    handledResponse.errorType ≠ .str (typeOf .undefined) :=
  ⟨rfl, str_ne_of_ne _ _ (by decide)⟩

/-- C8, amended: for a value `v` that is not a native error and for which `isError`
evaluates to false, `toRuntimeResponse` returns `errorType = typeof v`, as `errorMessage`
the result of the call `v.toString()` and an empty `trace` when that call returns, and
the fixed record of the `catch` block when that call throws. -/
theorem toRuntimeResponse_non_error (v : JSVal)
    (hnat : isNativeError v = false) (hie : isError v = .ok false) :
    toRuntimeResponse v =
      match callMethod v "toString" [] with
      | .ok t => .ok { errorType := .str (typeOf v), errorMessage := t, trace := .arr [] }
      | .error _ => .ok handledResponse := by
  simp only [toRuntimeResponse, toRuntimeResponseTry, hnat, hie, ok_bind]
  cases hc : callMethod v "toString" [] <;> simp [ok_bind, error_bind]

theorem toRuntimeResponse_non_error_witness :
    toRuntimeResponse (.num 42) =
      .ok { errorType := .str "number", errorMessage := .str "42", trace := .arr [] } :=
  toRuntimeResponse_non_error (.num 42) rfl rfl

/-! ## toFormatted -/

/-- C9: for a native error whose `name` is a BigInt, the rendering with the replacer
throws, and so does the rendering of `toRuntimeResponse(error)` in the `catch` block:
`toFormatted` throws a TypeError. -/
theorem toFormatted_throws :
    jsonStringify (some _withEnumerableProperties) errorNamedBigInt =
      .error (mkError .typeErr "Do not know how to serialize a BigInt") ∧
    toFormatted errorNamedBigInt =
      .error (mkError .typeErr "Do not know how to serialize a BigInt") :=
  ⟨rfl, rfl⟩

/-! ## Round trip through JSON -/

theorem hex4_control : ∀ n : Fin 32,
    hex4 '0' '0' (hexDigit (n.val / 16)) (hexDigit (n.val % 16)) = some n.val := by
  decide

theorem decodeEscape_u (a b c d : Char) (tail : List Char) (n : Nat)
    (hx : hex4 a b c d = some n) (hn : n < 0xD800) :
    decodeEscape ('u' :: a :: b :: c :: d :: tail) = some (Char.ofNat n, 5) := by
  have h1 : ¬ (0xD800 ≤ n ∧ n < 0xDC00) := by omega
  have h2 : ¬ (0xDC00 ≤ n ∧ n < 0xE000) := by omega
  simp only [decodeEscape, hx, h1, h2, if_false, if_true]

theorem parseStringChars_escape (rest : List Char) (x : Char) (k : Nat)
    (h : decodeEscape rest = some (x, k)) :
    parseStringChars ('\\' :: rest) 0 = consResult x (parseStringChars rest k) := by
  rw [parseStringChars]
  simp [h]

theorem parseStringChars_quoteChar (c : Char) (tail : List Char) :
    parseStringChars (quoteChar c ++ tail) 0 = consResult c (parseStringChars tail 0) := by
  unfold quoteChar
  split_ifs with h1 h2 h3 h4 h5 h6 h7 h8
  · subst h1; rfl
  · subst h2; rfl
  · subst h3; rfl
  · subst h4; rfl
  · subst h5; rfl
  · subst h6; rfl
  · subst h7; rfl
  · have hx := hex4_control ⟨c.toNat, h8⟩
    simp only at hx
    have hc : Char.ofNat c.toNat = c := Char.ofNat_toNat c
    have hd := decodeEscape_u '0' '0' (hexDigit (c.toNat / 16)) (hexDigit (c.toNat % 16)) tail
      c.toNat hx (by omega)
    rw [hc] at hd
    show parseStringChars ('\\' :: 'u' :: '0' :: '0' :: hexDigit (c.toNat / 16) ::
      hexDigit (c.toNat % 16) :: tail) 0 = _
    rw [parseStringChars_escape _ c 5 hd]
    rfl
  · show parseStringChars (c :: tail) 0 = _
    rw [parseStringChars]
    simp [h1, h2, h8]

theorem parseStringChars_quoteChars (s rest : List Char) :
    parseStringChars (quoteChars s ++ '"' :: rest) 0 = some (s, rest) := by
  induction s with
  | nil => rfl
  | cons c s ih =>
    simp only [quoteChars, List.append_assoc]
    rw [parseStringChars_quoteChar, ih]
    rfl

theorem skipWs_quote (cs : List Char) : skipWs ('"' :: cs) = '"' :: cs := rfl

theorem parseValue_string (fuel : Nat) (s rest : List Char) :
    parseValue (fuel + 1) ('"' :: (quoteChars s ++ '"' :: rest)) =
      some (.str (String.mk s), rest) := by
  rw [parseValue, skipWs_quote]
  simp [parseStringChars_quoteChars]

theorem quoteJSONString_data (s : String) (rest : List Char) :
    (quoteJSONString s).data ++ rest = '"' :: (quoteChars s.data ++ '"' :: rest) := by
  simp [quoteJSONString]

theorem parseItems_strings (tr : List String) (a : String) (rest : List Char) :
    ∀ fuel, tr.length + 2 ≤ fuel →
      parseItems fuel ((joinWith "," ((a :: tr).map quoteJSONString)).data ++ ']' :: rest) =
        some ((a :: tr).map JSVal.str, rest) := by
  induction tr generalizing a with
  | nil =>
    intro fuel hf
    obtain ⟨f, rfl⟩ : ∃ f, fuel = f + 2 := ⟨fuel - 2, by simp at hf; omega⟩
    simp only [List.map, joinWith, quoteJSONString_data]
    rw [parseItems, parseValue_string]
    rfl
  | cons b tl ih =>
    intro fuel hf
    obtain ⟨f, rfl⟩ : ∃ f, fuel = f + 2 := ⟨fuel - 2, by simp at hf; omega⟩
    have h := ih b (f + 1) (by simp at hf ⊢; omega)
    simp only [List.map] at h
    have e : (joinWith "," ((a :: b :: tl).map quoteJSONString)).data ++ ']' :: rest =
        '"' :: (quoteChars a.data ++ '"' :: (',' ::
          ((joinWith "," (quoteJSONString b :: tl.map quoteJSONString)).data ++ ']' :: rest))) := by
      simp [joinWith, quoteJSONString]
    rw [e, parseItems, parseValue_string]
    show (match parseItems (f + 1) _ with
      | some (vs, r2) => some (JSVal.str a :: vs, r2)
      | none => none) = _
    rw [h]
    rfl

theorem joined_quotes_head (a : String) (tl : List String) :
    ∃ x, (joinWith "," ((a :: tl).map quoteJSONString)).data = '"' :: x := by
  cases tl <;> simp [joinWith, quoteJSONString]

theorem parseValue_stringArray (tr : List String) (rest : List Char) (fuel : Nat)
    (hf : tr.length + 3 ≤ fuel) :
    parseValue fuel ('[' :: ((joinWith "," (tr.map quoteJSONString)).data ++ ']' :: rest)) =
      some (.arr (tr.map JSVal.str), rest) := by
  obtain ⟨f, rfl⟩ : ∃ f, fuel = f + 1 := ⟨fuel - 1, by omega⟩
  cases tr with
  | nil => rfl
  | cons a tl =>
    have hi := parseItems_strings tl a rest f (by simp at hf ⊢; omega)
    obtain ⟨x, hx⟩ := joined_quotes_head a tl
    rw [hx] at hi ⊢
    rw [parseValue]
    simp only [List.cons_append] at hi
    simp [skipWs, isJsonWs, hi]

theorem parseMembers_more (f : Nat) (k r2 r4 : List Char) (v : JSVal)
    (acc : List (String × JSProp)) (hv : parseValue f r2 = some (v, ',' :: r4)) :
    parseMembers (f + 1) ('"' :: (quoteChars k ++ '"' :: ':' :: r2)) acc =
      parseMembers f r4 (setProp acc (String.mk k) v) := by
  rw [parseMembers, skipWs_quote]
  simp [parseStringChars_quoteChars, skipWs, isJsonWs, hv]

theorem parseMembers_last (f : Nat) (k r2 r4 : List Char) (v : JSVal)
    (acc : List (String × JSProp)) (hv : parseValue f r2 = some (v, '\x7d' :: r4)) :
    parseMembers (f + 1) ('"' :: (quoteChars k ++ '"' :: ':' :: r2)) acc =
      some (setProp acc (String.mk k) v, r4) := by
  rw [parseMembers, skipWs_quote]
  simp [parseStringChars_quoteChars, skipWs, isJsonWs, hv]

theorem serializeProperty_str (fuel : Nat) (s : String) :
    serializeProperty (some _withEnumerableProperties) (fuel + 1) (.str s) =
      .ok (some (quoteJSONString s)) := rfl

theorem serializeProperty_strings (fuel : Nat) (tr : List String) :
    (tr.map JSVal.str).mapM (fun x => do
        let r ← serializeProperty (some _withEnumerableProperties) (fuel + 1) x
        (Except.ok (r.getD "null") : Except JSVal String)) =
      .ok (tr.map quoteJSONString) := by
  induction tr with
  | nil => rfl
  | cons a tl ih =>
    simp only [List.map, List.mapM_cons, serializeProperty_str, ok_bind, ih, Option.getD_some]
    rfl

theorem serializeProperty_arr (fuel : Nat) (items : List JSVal) :
    serializeProperty (some _withEnumerableProperties) (fuel + 1) (.arr items) =
      (do
        let parts ← items.mapM (fun x => do
          let r ← serializeProperty (some _withEnumerableProperties) fuel x
          (Except.ok (r.getD "null") : Except JSVal String))
        .ok (some ("[" ++ joinWith "," parts ++ "]"))) := rfl

theorem serializeProperty_stringArray (fuel : Nat) (tr : List String) :
    serializeProperty (some _withEnumerableProperties) (fuel + 2) (.arr (tr.map JSVal.str)) =
      .ok (some ("[" ++ joinWith "," (tr.map quoteJSONString) ++ "]")) := by
  rw [serializeProperty_arr, serializeProperty_strings]
  rfl

theorem serializeProperty_str_succ (fuel : Nat) (s : String) :
    serializeProperty (some _withEnumerableProperties) (fuel + 2) (.str s) =
      .ok (some (quoteJSONString s)) := rfl

theorem jsonStringify_normalizedError (t m : String) (tr : List String) :
    jsonStringify (some _withEnumerableProperties) (normalizedError t m tr).toJS =
      .ok (some (normalizedErrorText t m tr)) := by
  show (do
    let members ← [("errorType", JSProp.data true (.str t)),
      ("errorMessage", JSProp.data true (.str m)),
      ("trace", JSProp.data true (.arr (tr.map JSVal.str)))].mapM
        (fun (kp : String × JSProp) => do
          let v ← readProp kp.2
          let r ← serializeProperty (some _withEnumerableProperties) (9997 + 2) v
          (Except.ok (r.map (fun x => quoteJSONString kp.1 ++ ":" ++ x)) :
            Except JSVal (Option String)))
    (Except.ok (some ("\x7b" ++ joinWith "," (members.filterMap id) ++ "\x7d")) :
      Except JSVal (Option String))) = _
  simp only [List.mapM_cons, List.mapM_nil, readProp, ok_bind, serializeProperty_str_succ,
    serializeProperty_stringArray]
  rfl

theorem joined_quotes_length (tr : List String) :
    tr.length ≤ (joinWith "," (tr.map quoteJSONString)).data.length := by
  induction tr with
  | nil => simp
  | cons a tl ih =>
    cases tl with
    | nil => simp [joinWith, quoteJSONString]
    | cons b tl2 =>
      simp only [List.map, joinWith, String.data_append, List.length_append, List.length_cons]
        at ih ⊢
      omega

theorem normalizedErrorText_data (t m : String) (tr : List String) :
    (normalizedErrorText t m tr).data =
      '\x7b' :: '"' :: (quoteChars "errorType".data ++ '"' :: ':' ::
        ('"' :: (quoteChars t.data ++ '"' :: ',' ::
        ('"' :: (quoteChars "errorMessage".data ++ '"' :: ':' ::
        ('"' :: (quoteChars m.data ++ '"' :: ',' ::
        ('"' :: (quoteChars "trace".data ++ '"' :: ':' ::
        ('[' :: ((joinWith "," (tr.map quoteJSONString)).data ++ [']', '\x7d']))))))))))) := by
  simp [normalizedErrorText, joinWith, quoteJSONString]

theorem parseValue_normalizedErrorText (t m : String) (tr : List String) (fuel : Nat)
    (hf : tr.length + 7 ≤ fuel) :
    parseValue fuel (normalizedErrorText t m tr).data =
      some ((normalizedError t m tr).toJS, []) := by
  obtain ⟨f, rfl⟩ : ∃ f, fuel = f + 3 + 1 := ⟨fuel - 4, by omega⟩
  have ha := parseValue_stringArray tr ['\x7d'] f (by omega)
  rw [normalizedErrorText_data, parseValue]
  simp only [skipWs, isJsonWs, skipWs_quote, Char.reduceEq, Bool.or_false, Bool.false_eq_true,
    if_false, decide_False, decide_True, if_true]
  rw [parseMembers_more (f + 2) _ _ _ _ _ (parseValue_string (f + 1) _ _),
    parseMembers_more (f + 1) _ _ _ _ _ (parseValue_string f _ _),
    parseMembers_last f _ _ _ _ _ ha]
  rfl

theorem jsonParse_normalizedErrorText (t m : String) (tr : List String) :
    jsonParse (normalizedErrorText t m tr) = some (normalizedError t m tr).toJS := by
  have hl : tr.length + 7 ≤ (normalizedErrorText t m tr).data.length + 1 := by
    have := joined_quotes_length tr
    rw [normalizedErrorText_data]
    simp only [List.length_cons, List.length_append]
    omega
  simp only [jsonParse, parseValue_normalizedErrorText t m tr _ hl]
  rfl

/-- C10: for every normalized error record (type `t`, message `m`, trace lines `tr`),
`toFormatted` returns a tab followed by a text that `JSON.parse` reads back as an object
whose `errorType` is `t` and whose `errorMessage` is `m`. -/
theorem toFormatted_roundtrip (t m : String) (tr : List String) :
    ∃ out body o, toFormatted (normalizedError t m tr).toJS = .ok out ∧
      out.data = '\t' :: body.data ∧ jsonParse body = some o ∧
      getProp o "errorType" = .ok (.str t) ∧ getProp o "errorMessage" = .ok (.str m) := by
  refine ⟨tabPlus (some (normalizedErrorText t m tr)), normalizedErrorText t m tr,
    (normalizedError t m tr).toJS, ?_, rfl, jsonParse_normalizedErrorText t m tr, rfl, rfl⟩
  simp only [toFormatted, jsonStringify_normalizedError]

/-! ## RuntimeClient -/

/-- C11: for a payload that is a function, `JSON.stringify` returns `undefined` without
throwing, `_trySerializeResponse` passes that on, and `postInvocationResponse` fails with
the TypeError of `Buffer.from(undefined)` instead of the serialization error; a payload
on which `JSON.stringify` throws gives the serialization error, and `undefined` is posted
as `null`. -/
theorem postInvocationResponse_function_payload :
    _trySerializeResponse functionPayload = .ok none ∧
    postInvocationResponse fixtureClient functionPayload "r1" = .error invalidArgType ∧
    postInvocationResponse fixtureClient (.bigint 1) "r1" = .error unableToStringify ∧
    (postInvocationResponse fixtureClient .undefined "r1").map (fun r => r.body) =
      .ok (some "null") :=
  ⟨rfl, rfl, rfl, rfl⟩

theorem utf8Encode_units (c : Char) :
    utf16Units c ≤ (utf8Encode c).length ∧
      ((utf8Encode c).length = utf16Units c ↔ c.toNat < 0x80) := by
  unfold utf8Encode utf16Units
  by_cases h1 : c.toNat < 0x80
  · have h2 : c.toNat < 0x10000 := by omega
    simp [h1, h2]
  · by_cases h2 : c.toNat < 0x800
    · have h3 : c.toNat < 0x10000 := by omega
      simp [h1, h2, h3]
    · by_cases h3 : c.toNat < 0x10000
      · simp [h1, h2, h3]
      · simp [h1, h2, h3]

theorem utf8Bytes_length (cs : List Char) :
    utf16Length cs ≤ (utf8Bytes cs).length ∧
      ((utf8Bytes cs).length ≠ utf16Length cs ↔ ∃ c ∈ cs, 0x80 ≤ c.toNat) := by
  induction cs with
  | nil => simp [utf8Bytes, utf16Length]
  | cons c cs ih =>
    obtain ⟨hle, hiff⟩ := ih
    obtain ⟨hc, hceq⟩ := utf8Encode_units c
    simp only [utf8Bytes, utf16Length, List.length_append, List.mem_cons, exists_eq_or_imp]
    refine ⟨by omega, ?_⟩
    rw [← hiff]
    constructor
    · intro hne
      by_cases ha : c.toNat < 0x80
      · right
        have := hceq.mpr ha
        omega
      · left
        omega
    · rintro (ha | hb)
      · have : (utf8Encode c).length ≠ utf16Units c := fun e => by
          have := hceq.mp e
          omega
        omega
      · omega

theorem toRuntimeResponse_returns (e : JSVal) : ∃ r, toRuntimeResponse e = .ok r := by
  unfold toRuntimeResponse
  cases toRuntimeResponseTry e <;> exact ⟨_, rfl⟩

theorem post_ok (client : RuntimeClient) (path : String) (body : JSVal)
    (headers : List (String × JSProp)) (req : PostRequest)
    (h : _post client path body headers = .ok req) :
    ∃ s, _trySerializeResponse body = .ok (some s) ∧ req.body = some s ∧
      req.path = path ∧ req.method = "POST" ∧
      objectAssign [("Content-Type", .data true (.str "application/json")),
        ("Content-Length", .data true (.num (utf8Bytes s.data).length))]
        (enumerableOwn headers) = .ok req.headers := by
  unfold _post at h
  cases h1 : _trySerializeResponse body with
  | error t => rw [h1] at h; cases h
  | ok bs =>
    rw [h1] at h
    cases bs with
    | none => cases h
    | some s =>
      simp only [ok_bind, bufferFromLength] at h
      cases h2 : objectAssign [("Content-Type", JSProp.data true (.str "application/json")),
          ("Content-Length", JSProp.data true (.num (utf8Bytes s.data).length))]
          (enumerableOwn headers) with
      | error t => rw [h2] at h; cases h
      | ok hs =>
        rw [h2] at h
        simp only [ok_bind] at h
        injection h with h
        subst h
        exact ⟨s, rfl, rfl, rfl, rfl, h2⟩

theorem post_returns (client : RuntimeClient) (path : String) (body : JSVal)
    (headers hs : List (String × JSProp)) (s : String)
    (h1 : _trySerializeResponse body = .ok (some s))
    (h2 : objectAssign [("Content-Type", .data true (.str "application/json")),
        ("Content-Length", .data true (.num (utf8Bytes s.data).length))]
        (enumerableOwn headers) = .ok hs) :
    _post client path body headers =
      .ok { hostname := client.hostname, port := client.port, path := path, method := "POST",
            headers := hs, body := some s } := by
  unfold _post
  simp only [h1, ok_bind, bufferFromLength, h2]

/-- C12: every request issued by `postInvocationResponse`, `postInitError` and
`postInvocationError` has a body string, and its `Content-Length` header is the number of
bytes of the UTF-8 encoding of that string; that number differs from the number of UTF-16
code units of the string exactly when the string contains a non-ASCII character. -/
theorem post_contentLength (client : RuntimeClient)
    (xrayToFormatted : JSVal → Except JSVal JSVal) (payload e : JSVal) (id : String)
    (req : PostRequest)
    (h : postInvocationResponse client payload id = .ok req ∨
      postInitError client e = .ok req ∨
      postInvocationError client xrayToFormatted e id = .ok req) :
    ∃ body, req.body = some body ∧
      req.header "Content-Length" = some (.num (utf8Bytes body.data).length) ∧
      ((utf8Bytes body.data).length ≠ utf16Length body.data ↔
        ∃ c ∈ body.data, 0x80 ≤ c.toNat) := by
  rcases h with h | h | h
  · obtain ⟨s, -, hb, -, -, hh⟩ := post_ok _ _ _ _ _ h
    refine ⟨s, hb, ?_, (utf8Bytes_length s.data).2⟩
    have : req.headers = _ := (Except.ok.inj hh).symm
    simp only [PostRequest.header, this]
    rfl
  · obtain ⟨r, hr⟩ := toRuntimeResponse_returns e
    simp only [postInitError, hr, ok_bind] at h
    obtain ⟨s, -, hb, -, -, hh⟩ := post_ok _ _ _ _ _ h
    refine ⟨s, hb, ?_, (utf8Bytes_length s.data).2⟩
    have : req.headers = _ := (Except.ok.inj hh).symm
    simp only [PostRequest.header, this]
    rfl
  · obtain ⟨r, hr⟩ := toRuntimeResponse_returns e
    simp only [postInvocationError, hr, ok_bind] at h
    cases hx : xrayToFormatted e with
    | error t => rw [hx] at h; cases h
    | ok x =>
      rw [hx] at h
      simp only [ok_bind] at h
      obtain ⟨s, -, hb, -, -, hh⟩ := post_ok _ _ _ _ _ h
      refine ⟨s, hb, ?_, (utf8Bytes_length s.data).2⟩
      have : req.headers = _ := (Except.ok.inj hh).symm
      simp only [PostRequest.header, this]
      rfl

theorem post_contentLength_witness :
    ∃ body, some "\"é\"" = some body ∧
      (some (JSVal.num 4) : Option JSVal) = some (.num (utf8Bytes body.data).length) ∧
      ((utf8Bytes body.data).length ≠ utf16Length body.data ↔
        ∃ c ∈ body.data, 0x80 ≤ c.toNat) :=
  post_contentLength fixtureClient (fun _ => .ok .undefined) (.str "é") .undefined "r1"
    { hostname := "127.0.0.1", port := .num 9001,
      path := "/2018-06-01/runtime/invocation/r1/response", method := "POST",
      headers := [("Content-Type", .data true (.str "application/json")),
                  ("Content-Length", .data true (.num 4))],
      body := some "\"é\"" } (Or.inl rfl)

theorem serializeProperty_none_str (fuel : Nat) (s : String) :
    serializeProperty none (fuel + 1) (.str s) = .ok (some (quoteJSONString s)) := rfl

theorem serializeProperty_none_strings (fuel : Nat) (tr : List String) :
    (tr.map JSVal.str).mapM (fun x => do
        let r ← serializeProperty none (fuel + 1) x
        (Except.ok (r.getD "null") : Except JSVal String)) =
      .ok (tr.map quoteJSONString) := by
  induction tr with
  | nil => rfl
  | cons a tl ih =>
    simp only [List.map, List.mapM_cons, serializeProperty_none_str, ok_bind, ih,
      Option.getD_some]
    rfl

theorem serializeProperty_none_arr (fuel : Nat) (items : List JSVal) :
    serializeProperty none (fuel + 1) (.arr items) =
      (do
        let parts ← items.mapM (fun x => do
          let r ← serializeProperty none fuel x
          (Except.ok (r.getD "null") : Except JSVal String))
        .ok (some ("[" ++ joinWith "," parts ++ "]"))) := rfl

theorem serializeProperty_none_stringArray (fuel : Nat) (tr : List String) :
    serializeProperty none (fuel + 2) (.arr (tr.map JSVal.str)) =
      .ok (some ("[" ++ joinWith "," (tr.map quoteJSONString) ++ "]")) := by
  rw [serializeProperty_none_arr, serializeProperty_none_strings]
  rfl

theorem jsonStringify_none_normalizedError (t m : String) (tr : List String) :
    jsonStringify none (normalizedError t m tr).toJS =
      .ok (some (normalizedErrorText t m tr)) := by
  show (do
    let members ← [("errorType", JSProp.data true (.str t)),
      ("errorMessage", JSProp.data true (.str m)),
      ("trace", JSProp.data true (.arr (tr.map JSVal.str)))].mapM
        (fun (kp : String × JSProp) => do
          let v ← readProp kp.2
          let r ← serializeProperty none (9997 + 2) v
          (Except.ok (r.map (fun x => quoteJSONString kp.1 ++ ":" ++ x)) :
            Except JSVal (Option String)))
    (Except.ok (some ("\x7b" ++ joinWith "," (members.filterMap id) ++ "\x7d")) :
      Except JSVal (Option String))) = _
  simp only [List.mapM_cons, List.mapM_nil, readProp, ok_bind,
    show ∀ s, serializeProperty none (9997 + 2) (.str s) = .ok (some (quoteJSONString s)) from
      fun _ => rfl,
    serializeProperty_none_stringArray]
  rfl

theorem trySerialize_response (r : RuntimeResponse) (x : Option String)
    (h : _trySerializeResponse r.toJS = .ok x) : jsonStringify none r.toJS = .ok x := by
  unfold _trySerializeResponse at h
  simp only [RuntimeResponse.toJS] at h ⊢
  cases hj : jsonStringify none (.obj .plain [("errorType", .data true r.errorType),
      ("errorMessage", .data true r.errorMessage), ("trace", .data true r.trace)]) with
  | error t => rw [hj] at h; cases h
  | ok y => rw [hj] at h; exact h

theorem trySerialize_response_ok (r : RuntimeResponse) (x : Option String)
    (h : jsonStringify none r.toJS = .ok x) : _trySerializeResponse r.toJS = .ok x := by
  unfold _trySerializeResponse
  simp only [RuntimeResponse.toJS] at h ⊢
  rw [h]

/-- C13: let `resp` be `toRuntimeResponse(e)`.  Every request that `postInvocationError`
issues is a POST to `/2018-06-01/runtime/invocation/<id>/error` built from the given id,
and every request that `postInitError` issues is a POST to the fixed path
`/2018-06-01/runtime/init/error`; in both the body is the JSON encoding of `resp` and the
error-type header is `resp.errorType`.  The requests are issued whenever `resp` has a JSON
encoding (and, for `postInvocationError`, the X-Ray formatter returns).  For a record of
strings the `errorType` read back from the body text is the value of the header. -/
theorem postError_request (client : RuntimeClient)
    (xrayToFormatted : JSVal → Except JSVal JSVal) (e : JSVal) (id : String) :
    ∃ resp, toRuntimeResponse e = .ok resp ∧
      (∀ req, postInvocationError client xrayToFormatted e id = .ok req →
        req.reports ("/2018-06-01/runtime/invocation/" ++ id ++ "/error") resp) ∧
      (∀ req, postInitError client e = .ok req →
        req.reports "/2018-06-01/runtime/init/error" resp) ∧
      (∀ body, jsonStringify none resp.toJS = .ok (some body) →
        (∃ req, postInitError client e = .ok req) ∧
        ∀ x, xrayToFormatted e = .ok x →
          ∃ req, postInvocationError client xrayToFormatted e id = .ok req) ∧
      (∀ t m tr, resp = normalizedError t m tr →
        jsonStringify none resp.toJS = .ok (some (normalizedErrorText t m tr)) ∧
        (jsonParse (normalizedErrorText t m tr)).map (fun o => getProp o "errorType") =
          some (.ok resp.errorType)) := by
  obtain ⟨r, hr⟩ := toRuntimeResponse_returns e
  refine ⟨r, hr, ?_, ?_, ?_, ?_⟩
  · intro req h
    simp only [postInvocationError, hr, ok_bind] at h
    cases hx : xrayToFormatted e with
    | error t => rw [hx] at h; cases h
    | ok x =>
      rw [hx] at h
      simp only [ok_bind] at h
      obtain ⟨s, hs, hb, hp, hm, hh⟩ := post_ok _ _ _ _ _ h
      have hh2 : req.headers = _ := (Except.ok.inj hh).symm
      refine ⟨hp, hm, ?_, ?_⟩
      · rw [hb]; exact trySerialize_response r _ hs
      · simp only [PostRequest.header, hh2]
        rfl
  · intro req h
    simp only [postInitError, hr, ok_bind] at h
    obtain ⟨s, hs, hb, hp, hm, hh⟩ := post_ok _ _ _ _ _ h
    have hh2 : req.headers = _ := (Except.ok.inj hh).symm
    refine ⟨hp, hm, ?_, ?_⟩
    · rw [hb]; exact trySerialize_response r _ hs
    · simp only [PostRequest.header, hh2]
      rfl
  · intro body hb
    have hs := trySerialize_response_ok r _ hb
    constructor
    · simp only [postInitError, hr, ok_bind]
      exact ⟨_, post_returns _ _ _ _ _ body hs rfl⟩
    · intro x hx
      simp only [postInvocationError, hr, hx, ok_bind]
      exact ⟨_, post_returns _ _ _ _ _ body hs rfl⟩
  · intro t m tr h
    subst h
    refine ⟨jsonStringify_none_normalizedError t m tr, ?_⟩
    rw [jsonParse_normalizedErrorText]
    rfl

theorem postError_request_witness :
    ∃ req, postInvocationError fixtureClient (fun _ => .ok (.str "cause"))
      (mkError .error "boom") "r1" = .ok req := by
  obtain ⟨resp, hresp, -, -, hret, -⟩ :=
    postError_request fixtureClient (fun _ => .ok (.str "cause")) (mkError .error "boom") "r1"
  have hx : resp = normalizedError "Error" "boom" ["Error: boom", "    at <anonymous>"] := by
    have hval : toRuntimeResponse (mkError .error "boom") =
        .ok (normalizedError "Error" "boom" ["Error: boom", "    at <anonymous>"]) := rfl
    rw [hval] at hresp
    injection hresp with hresp
    exact hresp.symm
  subst hx
  exact (hret _ (jsonStringify_none_normalizedError _ _ _)).2 _ rfl

/-! ## Parsed descriptors -/

theorem basename_infix (d : String) : (basename d).data <:+: d.data := by
  unfold basename
  split
  · exact ⟨[], d.data, by simp⟩
  · rename_i start e _
    exact (List.drop_suffix start (d.data.take e)).isInfix.trans (List.take_prefix e d.data).isInfix

theorem matchFunctionExpr_some (s m f : String) (h : matchFunctionExpr s = some (m, f)) :
    s.data = m.data ++ '.' :: f.data ∧ '.' ∉ m.data := by
  unfold matchFunctionExpr at h
  have hsplit := List.takeWhile_append_dropWhile (fun c => c != '.') s.data
  cases hd : s.data.dropWhile (fun c => c != '.') with
  | nil => rw [hd] at h; cases h
  | cons c rest =>
    rw [hd] at h hsplit
    have hc : c = '.' := by
      have hne : s.data.dropWhile (fun c => c != '.') ≠ [] := by rw [hd]; simp
      have := List.head_dropWhile_not (fun c => c != '.') s.data hne
      simp only [hd, List.head_cons] at this
      simpa using this
    subst hc
    by_cases hall : rest.all (fun c => !isLineTerminator c) = true
    · simp only [hall, if_true, Option.some.injEq, Prod.mk.injEq] at h
      obtain ⟨hm, hf⟩ := h
      subst hm hf
      refine ⟨hsplit.symm, ?_⟩
      intro hmem
      have := List.mem_takeWhile_imp hmem
      simp at this
    · simp [hall] at h

/-- C14, as stated, fails: `.handler` and `index.` pass validation and parsing, with an
empty module name and an empty function path, and `load` does not reject them with
MalformedHandlerName. -/
theorem parsed_descriptor_counterexample :
    (_throwIfInvalidHandler ".handler" = .ok () ∧
      _splitHandlerString (_moduleRootAndHandler ".handler").2 = .ok ("", "handler")) ∧
    (_throwIfInvalidHandler "index." = .ok () ∧
      _splitHandlerString (_moduleRootAndHandler "index.").2 = .ok ("index", "")) ∧
    load (fixtureHost []) "/app" "index." =
      .error (.importModuleError "Error: Cannot find module 'index'") ∧
    load (fixtureHost [("/app/index", .ok (.obj .plain []))]) "/app" "index." =
      .error (.handlerNotFound "index. is undefined or not exported") :=
  ⟨⟨rfl, rfl⟩, ⟨rfl, rfl⟩, rfl, rfl⟩

/-- C14, amended: for a descriptor that passes validation and parsing, the final path
segment is the module name, a dot and the function path; the module name contains no
dot, and the function path neither starts with a dot nor contains two dots in a row.
Either of the two can be empty. -/
theorem parsed_descriptor_invariant (d m f : String)
    (hv : _throwIfInvalidHandler d = .ok ())
    (hp : _splitHandlerString (_moduleRootAndHandler d).2 = .ok (m, f)) :
    (basename d).data = m.data ++ '.' :: f.data ∧ '.' ∉ m.data ∧
      f.data.head? ≠ some '.' ∧ ¬ (['.', '.'] <:+: f.data) := by
  have hno : ¬ (['.', '.'] <:+: d.data) := by
    intro hin
    have := (includes_eq_true_iff d "..").mpr hin
    simp [_throwIfInvalidHandler, this] at hv
  have hm : matchFunctionExpr (basename d) = some (m, f) := by
    simp only [_moduleRootAndHandler, _splitHandlerString] at hp
    cases hmm : matchFunctionExpr (basename d) with
    | none => rw [hmm] at hp; cases hp
    | some mf =>
      rw [hmm] at hp
      obtain ⟨a, b⟩ := mf
      injection hp with hp
      rw [hp]
  obtain ⟨hdata, hdot⟩ := matchFunctionExpr_some _ _ _ hm
  have hbase := basename_infix d
  rw [hdata] at hbase
  refine ⟨hdata, hdot, ?_, ?_⟩
  · intro hhead
    cases hf : f.data with
    | nil => rw [hf] at hhead; cases hhead
    | cons c rest =>
      rw [hf] at hhead hbase
      injection hhead with hc
      subst hc
      exact hno (List.IsInfix.trans ⟨m.data, rest, by simp⟩ hbase)
  · intro hin
    obtain ⟨p, q, hpq⟩ := hin
    exact hno (List.IsInfix.trans ⟨m.data ++ '.' :: p, q, by simp [← hpq]⟩ hbase)

theorem parsed_descriptor_invariant_witness :
    (basename "src/index.a.b").data = "index".data ++ '.' :: "a.b".data ∧
      '.' ∉ "index".data ∧ "a.b".data.head? ≠ some '.' ∧ ¬ (['.', '.'] <:+: "a.b".data) :=
  parsed_descriptor_invariant "src/index.a.b" "index" "a.b" rfl rfl

/-- C15: `_moduleRootAndHandler` cuts the handler string at the first occurrence of the
text of its final segment: for `a.b/a.b` the module root is empty, not `a.b/`, so `load`
looks for the module `a` in the application root; for the example of the doc comment the
module root keeps its trailing slash. -/
theorem moduleRootAndHandler_first_occurrence :
    _moduleRootAndHandler "a.b/a.b" = ("", "a.b") ∧
    load (fixtureHost [("/app/a.b/a", .ok (.obj .plain [("b", .data true handlerFunction)]))])
      "/app" "a.b/a.b" = .error (.importModuleError "Error: Cannot find module 'a'") ∧
    _moduleRootAndHandler "./somepath/something/module.nestedobj.handler" =
      ("./somepath/something/", "module.nestedobj.handler") :=
  ⟨rfl, rfl, rfl⟩

/-! ## The walk of the property path -/

theorem truthy_false_of_isNullish (v : JSVal) (h : isNullish v = true) : truthy v = false := by
  cases v <;> simp [isNullish] at h <;> rfl

theorem resolve_falsy (keys : List String) (v : JSVal) (h : truthy v = false) :
    keys.foldlM (fun nested key => if truthy nested then getProp nested key else .ok nested) v =
      (.ok v : Except JSVal JSVal) := by
  induction keys with
  | nil => rfl
  | cons k ks ih =>
    simp only [List.foldlM_cons, h, Bool.false_eq_true, if_false, ok_bind]
    exact ih

theorem walkPath_of_resolve (keys : List String) (obj v : JSVal)
    (h : keys.foldlM (fun nested key => if truthy nested then getProp nested key
      else .ok nested) obj = (.ok v : Except JSVal JSVal))
    (hv : truthy v = true) : walkPath obj keys = .ok (some v) := by
  induction keys generalizing obj with
  | nil =>
    injection h with h
    rw [walkPath, h]
  | cons k ks ih =>
    by_cases ht : truthy obj = true
    · have hn : isNullish obj = false := by
        cases hh : isNullish obj
        · rfl
        · rw [truthy_false_of_isNullish obj hh] at ht; cases ht
      simp only [List.foldlM_cons, ht, if_true] at h
      cases hg : getProp obj k with
      | error t => rw [hg] at h; cases h
      | ok w =>
        rw [hg] at h
        simp only [ok_bind] at h
        simp only [walkPath, hn, Bool.false_eq_true, if_false, hg, ok_bind]
        exact ih w h
    · have hf : truthy obj = false := by simpa using ht
      rw [resolve_falsy (k :: ks) obj hf] at h
      injection h with h
      rw [← h, hf] at hv
      cases hv

theorem resolve_of_walkPath_none (keys : List String) (obj : JSVal)
    (h : walkPath obj keys = .ok none) :
    ∃ v, keys.foldlM (fun nested key => if truthy nested then getProp nested key
      else .ok nested) obj = (.ok v : Except JSVal JSVal) ∧ truthy v = false := by
  induction keys generalizing obj with
  | nil => simp [walkPath] at h
  | cons k ks ih =>
    by_cases ht : truthy obj = true
    · have hn : isNullish obj = false := by
        cases hh : isNullish obj
        · rfl
        · rw [truthy_false_of_isNullish obj hh] at ht; cases ht
      simp only [walkPath, hn, Bool.false_eq_true, if_false] at h
      cases hg : getProp obj k with
      | error t => rw [hg] at h; cases h
      | ok w =>
        rw [hg] at h
        simp only [ok_bind] at h
        obtain ⟨v, hv, hfv⟩ := ih w h
        refine ⟨v, ?_, hfv⟩
        simp only [List.foldlM_cons, ht, if_true, hg, ok_bind]
        exact hv
    · have hf : truthy obj = false := by simpa using ht
      exact ⟨obj, resolve_falsy (k :: ks) obj hf, hf⟩

theorem load_of_loaded (h : Host) (appRoot d m p : String) (obj : JSVal)
    (hv : _throwIfInvalidHandler d = .ok ())
    (hp : _splitHandlerString (_moduleRootAndHandler d).2 = .ok (m, p))
    (hl : _loadUserApp h appRoot (_moduleRootAndHandler d).1 m = .ok obj) :
    load h appRoot d =
      match _resolveHandler obj p with
      | .ok v =>
        if !truthy v then .error (.handlerNotFound (d ++ " is undefined or not exported"))
        else if typeOf v ≠ "function" then .error (.handlerNotFound (d ++ " is not a function"))
        else .ok v
      | .error t => .error (.thrown t) := by
  simp only [load, hv, ok_bind, hp, hl]
  cases _resolveHandler obj p <;> rfl

theorem load_ok_inv (h : Host) (appRoot d : String) (v : JSVal)
    (hload : load h appRoot d = .ok v) :
    ∃ m p obj, _throwIfInvalidHandler d = .ok () ∧
      _splitHandlerString (_moduleRootAndHandler d).2 = .ok (m, p) ∧
      _loadUserApp h appRoot (_moduleRootAndHandler d).1 m = .ok obj := by
  cases hv : _throwIfInvalidHandler d with
  | error t => simp only [load, hv, error_bind] at hload; cases hload
  | ok u =>
    cases hp : _splitHandlerString (_moduleRootAndHandler d).2 with
    | error t => simp only [load, hv, ok_bind, hp, error_bind] at hload; cases hload
    | ok mp =>
      obtain ⟨m, p⟩ := mp
      cases hl : _loadUserApp h appRoot (_moduleRootAndHandler d).1 m with
      | error t => simp only [load, hv, ok_bind, hp, hl, error_bind] at hload; cases hload
      | ok obj => exact ⟨m, p, obj, rfl, rfl, hl⟩

/-- C16: whenever `load` returns a value, that value is a function, and it is the value
found by reading the segments of the property path (the text after the first dot of the
final path segment, split at dots) one after another from the exports of the loaded
module.  When that walk stops at an `undefined` or `null` value before the last segment,
`load` throws HandlerNotFound.  When `_resolveHandler` yields a function, `load` returns
it. -/
theorem load_returns_walk (h : Host) (appRoot d : String) :
    (∀ v, load h appRoot d = .ok v →
      typeOf v = "function" ∧
      ∃ m p obj, (basename d).data = m.data ++ '.' :: p.data ∧ '.' ∉ m.data ∧
        _loadUserApp h appRoot (_moduleRootAndHandler d).1 m = .ok obj ∧
        walkPath obj (jsSplit p ".") = .ok (some v)) ∧
    (∀ m p obj, _throwIfInvalidHandler d = .ok () →
      _splitHandlerString (_moduleRootAndHandler d).2 = .ok (m, p) →
      _loadUserApp h appRoot (_moduleRootAndHandler d).1 m = .ok obj →
      (walkPath obj (jsSplit p ".") = .ok none →
        load h appRoot d = .error (.handlerNotFound (d ++ " is undefined or not exported"))) ∧
      (∀ v, _resolveHandler obj p = .ok v → typeOf v = "function" →
        load h appRoot d = .ok v)) := by
  constructor
  · intro v hload
    obtain ⟨m, p, obj, hv, hp, hl⟩ := load_ok_inv h appRoot d v hload
    rw [load_of_loaded h appRoot d m p obj hv hp hl] at hload
    cases hr : _resolveHandler obj p with
    | error t => rw [hr] at hload; cases hload
    | ok w =>
      rw [hr] at hload
      by_cases ht : truthy w = true
      · by_cases hf : typeOf w = "function"
        · simp only [ht, Bool.not_true, Bool.false_eq_true, if_false, hf, ne_eq,
            not_true_eq_false] at hload
          injection hload with hload
          subst hload
          have hm : matchFunctionExpr (basename d) = some (m, p) := by
            simp only [_moduleRootAndHandler, _splitHandlerString] at hp
            cases hmm : matchFunctionExpr (basename d) with
            | none => rw [hmm] at hp; cases hp
            | some mf =>
              rw [hmm] at hp
              obtain ⟨a, b⟩ := mf
              injection hp with hp
              rw [hp]
          obtain ⟨hdata, hdot⟩ := matchFunctionExpr_some _ _ _ hm
          exact ⟨hf, m, p, obj, hdata, hdot, hl, walkPath_of_resolve _ obj w hr ht⟩
        · simp [ht, hf] at hload
      · simp [ht] at hload
  · intro m p obj hv hp hl
    rw [load_of_loaded h appRoot d m p obj hv hp hl]
    constructor
    · intro hw
      obtain ⟨v, hr, hfv⟩ := resolve_of_walkPath_none _ obj hw
      have hr2 : _resolveHandler obj p = .ok v := hr
      simp [hr2, hfv]
    · intro v hr hf
      have ht : truthy v = true := by
        cases v <;> simp [typeOf] at hf <;> rfl
      simp [hr, ht, hf]

theorem load_returns_walk_witness :
    typeOf handlerFunction = "function" ∧
      ∃ m p obj, (basename "index.handler").data = m.data ++ '.' :: p.data ∧ '.' ∉ m.data ∧
        _loadUserApp (moduleExporting handlerFunction) "/app"
          (_moduleRootAndHandler "index.handler").1 m = .ok obj ∧
        walkPath obj (jsSplit p ".") = .ok (some handlerFunction) :=
  (load_returns_walk (moduleExporting handlerFunction) "/app" "index.handler").1
    handlerFunction rfl

end RIC
